import Mathlib

/-!
Verification of the `filter2` story/project state model.

The Python sources (`src/filter/stories.py`, `src/filter/projects.py`,
`src/filter/story_cli.py`) manage a kanban-style story tracker backed by the
filesystem: a `.filter` directory holding a YAML configuration record, a flat
`stories/` collection of markdown files, and one `kanban/<stage>/` directory of
symlinks per workflow stage.

This file gives a shallow embedding of that state model: strings are Lean
`String`s / `List Char`, the filesystem state is an explicit record, and every
operation is a pure function from states to result-state pairs.  `Char.toLower`
and `Char.toUpper` coincide with Python's `str.lower`/`str.upper` on ASCII
input (both map only the basic latin letters); the claims about case mapping
are scoped to ASCII input accordingly.
-/

set_option maxHeartbeats 1000000

namespace Filter2

/-! ## Prefix derivation (`_generate_prefix`) -/

/-- Membership in the regex character class `[-_\d]` of
`re.sub(r"[-_\d]+$", "", ...)`, by code point: 45 is `-`, 95 is `_`,
48–57 are the ASCII digits `0`–`9`. -/
def isSepOrDigit (c : Char) : Bool :=
  decide (c.toNat = 45 ∨ c.toNat = 95 ∨ (48 ≤ c.toNat ∧ c.toNat ≤ 57))

/-- Remove the trailing run of `[-_\d]` characters: the effect of
`re.sub(r"[-_\d]+$", "", s)`. -/
def stripTrailingSepDigits (l : List Char) : List Char :=
  ((l.reverse).dropWhile isSepOrDigit).reverse

/-- Python `str.ljust(n, fill)`: right-pad with `fill` up to length `n`. -/
def ljust (l : List Char) (n : Nat) (fill : Char) : List Char :=
  l ++ List.replicate (n - l.length) fill

/-- The five-character rule shared by code and spec:
`clean_name[:5].upper() if len(clean_name) >= 5 else
 clean_name.upper().ljust(5, "X")`. -/
def fiveCharRule (clean_name : List Char) : List Char :=
  if clean_name.length ≥ 5 then (clean_name.take 5).map Char.toUpper
  else ljust (clean_name.map Char.toUpper) 5 'X'

/-- `StoryManager._generate_prefix` (identical to
`ProjectManager._generate_prefix`):
`clean_name = re.sub(r"[-_\d]+$", "", project_name.lower())`, followed by the
five-character rule. -/
def generatePrefix (project_name : String) : String :=
  String.mk (fiveCharRule (stripTrailingSepDigits (project_name.data.map Char.toLower)))

/-- Reference definition followed from the spec's words (§4.3): *strip any
trailing run of characters drawn from `{hyphen, underscore, digit}`*, then
*lower-case the remainder*, then the same five-character rule as the code. -/
def derive_prefix_spec (project_name : String) : String :=
  String.mk (fiveCharRule ((stripTrailingSepDigits project_name.data).map Char.toLower))

theorem toNat_toLower (c : Char) :
    (Char.toLower c).toNat =
      if 65 ≤ c.toNat ∧ c.toNat ≤ 90 then c.toNat + 32 else c.toNat := by
  unfold Char.toLower
  split
  · next h =>
    rw [if_pos h]
    have hv : (c.toNat + 32).isValidChar := Or.inl (by omega)
    rw [Char.ofNat, dif_pos hv]
    rfl
  · next h => rw [if_neg h]

theorem toNat_toUpper (c : Char) :
    (Char.toUpper c).toNat =
      if 97 ≤ c.toNat ∧ c.toNat ≤ 122 then c.toNat - 32 else c.toNat := by
  unfold Char.toUpper
  split
  · next h =>
    rw [if_pos h]
    have hv : (c.toNat - 32).isValidChar := Or.inl (by omega)
    rw [Char.ofNat, dif_pos hv]
    rfl
  · next h => rw [if_neg h]

/-- Lower-casing does not change membership in the `[-_\d]` class. -/
theorem isSepOrDigit_toLower (c : Char) :
    isSepOrDigit (Char.toLower c) = isSepOrDigit c := by
  have h := toNat_toLower c
  by_cases hc : 65 ≤ c.toNat ∧ c.toNat ≤ 90
  · rw [if_pos hc] at h
    simp only [isSepOrDigit, h, decide_eq_decide]
    omega
  · rw [if_neg hc] at h
    simp only [isSepOrDigit, h]

/-- Lower-casing commutes with stripping the trailing `[-_\d]` run. -/
theorem stripTrailingSepDigits_map_toLower (l : List Char) :
    stripTrailingSepDigits (l.map Char.toLower) =
      (stripTrailingSepDigits l).map Char.toLower := by
  unfold stripTrailingSepDigits
  rw [← List.map_reverse, List.dropWhile_map, ← List.map_reverse]
  have hp : (isSepOrDigit ∘ Char.toLower) = isSepOrDigit := by
    funext c
    exact isSepOrDigit_toLower c
  rw [hp]

theorem mem_stripTrailingSepDigits {c : Char} {l : List Char}
    (h : c ∈ stripTrailingSepDigits l) : c ∈ l := by
  unfold stripTrailingSepDigits at h
  rw [List.mem_reverse] at h
  have := (List.dropWhile_sublist (p := isSepOrDigit) (l := l.reverse)).mem h
  rwa [List.mem_reverse] at this

theorem length_fiveCharRule (l : List Char) : (fiveCharRule l).length = 5 := by
  unfold fiveCharRule
  by_cases h5 : l.length ≥ 5
  · rw [if_pos h5]
    rw [List.length_map, List.length_take]
    omega
  · rw [if_neg h5]
    unfold ljust
    simp only [List.length_append, List.length_replicate, List.length_map]
    omega

theorem mem_fiveCharRule {c : Char} {l : List Char} (hc : c ∈ fiveCharRule l) :
    (∃ a ∈ l, c = Char.toUpper a) ∨ c = 'X' := by
  unfold fiveCharRule at hc
  by_cases h5 : l.length ≥ 5
  · rw [if_pos h5] at hc
    rw [List.mem_map] at hc
    obtain ⟨a, ha, rfl⟩ := hc
    exact Or.inl ⟨a, List.mem_of_mem_take ha, rfl⟩
  · rw [if_neg h5] at hc
    unfold ljust at hc
    rw [List.mem_append] at hc
    rcases hc with hc | hc
    · rw [List.mem_map] at hc
      obtain ⟨a, ha, rfl⟩ := hc
      exact Or.inl ⟨a, ha, rfl⟩
    · exact Or.inr (List.eq_of_mem_replicate hc)

/-- C2: `_generate_prefix` coincides with the spec's reference derivation, and
the derived prefix always has length exactly 5 and — on ASCII input — consists
of ASCII characters none of which is a lower-case letter. -/
theorem generate_prefix_correct (P : String) :
    generatePrefix P = derive_prefix_spec P ∧
    (generatePrefix P).length = 5 ∧
    ((∀ c ∈ P.data, c.toNat < 128) →
      ∀ c ∈ (generatePrefix P).data,
        c.toNat < 128 ∧ ¬ (97 ≤ c.toNat ∧ c.toNat ≤ 122)) := by
  refine ⟨?_, ?_, ?_⟩
  · simp only [generatePrefix, derive_prefix_spec, stripTrailingSepDigits_map_toLower]
  · show (fiveCharRule (stripTrailingSepDigits (P.data.map Char.toLower))).length = 5
    exact length_fiveCharRule _
  · intro hascii c hc
    have hc' : c ∈ fiveCharRule (stripTrailingSepDigits (P.data.map Char.toLower)) := hc
    have hupper : ∀ a : Char, a.toNat < 128 →
        (Char.toUpper a).toNat < 128 ∧
        ¬ (97 ≤ (Char.toUpper a).toNat ∧ (Char.toUpper a).toNat ≤ 122) := by
      intro a ha
      have h := toNat_toUpper a
      split at h <;> omega
    rcases mem_fiveCharRule hc' with ⟨a, ha, rfl⟩ | rfl
    · have ha' := mem_stripTrailingSepDigits ha
      rw [List.mem_map] at ha'
      obtain ⟨b, hb, rfl⟩ := ha'
      have hb' := hascii b hb
      have h := toNat_toLower b
      have hlt : (Char.toLower b).toNat < 128 := by split at h <;> omega
      exact hupper _ hlt
    · exact ⟨by decide, by decide⟩

/-- Witness for C2 on the repository's own project name. -/
theorem generate_prefix_correct_witness :
    (∀ c ∈ "filter".data, c.toNat < 128) ∧
    (generatePrefix "filter" = derive_prefix_spec "filter" ∧
     (generatePrefix "filter").length = 5 ∧
     ((∀ c ∈ "filter".data, c.toNat < 128) →
       ∀ c ∈ (generatePrefix "filter").data,
         c.toNat < 128 ∧ ¬ (97 ≤ c.toNat ∧ c.toNat ≤ 122))) :=
  ⟨by decide, generate_prefix_correct "filter"⟩

/-! ## Story markdown content (`_generate_story_content`) and title
extraction (`_extract_title_from_story`) -/

/-- ASCII whitespace stripped by Python `str.strip()` (space, tab, newline,
carriage return, vertical tab, form feed; the full Unicode set is outside the
ASCII scope of this model). -/
def isPySpace (c : Char) : Bool :=
  c = ' ' || c = '\t' || c = '\n' || c = '\r' || c = '\x0b' || c = '\x0c'

/-- Python `str.strip()`. -/
def pyStrip (l : List Char) : List Char :=
  ((l.dropWhile isPySpace).reverse.dropWhile isPySpace).reverse

/-- Python `content.split("\n")`. -/
def splitLines : List Char → List (List Char)
  | [] => [[]]
  | c :: rest =>
    let r := splitLines rest
    if c = '\n' then [] :: r else (c :: r.headD []) :: r.tail

/-- Everything after the leftmost occurrence of the two-character separator
`": "`, if any: `some` of the second component of Python `s.split(": ", 1)`
when `": " in s`, and `none` otherwise. -/
def afterFirstColonSpace : List Char → Option (List Char)
  | [] => none
  | c :: rest =>
    if c = ':' ∧ rest.head? = some ' ' then some rest.tail
    else afterFirstColonSpace rest

/-- The story template below its heading line: everything of
`_generate_story_content`'s f-string after the first `"\n"`.  The
`description or 'No description provided.'` fallback triggers exactly on the
empty (falsy) string. -/
def storyBody (description now : String) : String :=
  "\n**Created:** " ++ now
    ++ "\n**Status:** Planning\n\n## Description\n\n"
    ++ (if description = "" then "No description provided." else description)
    ++ "\n\n## Acceptance Criteria\n\n- [ ] Define acceptance criteria for this story\n\n## Notes\n\n<!-- Add any additional notes or updates here -->\n\n## Related Issues\n\n<!-- Link to any related issues or stories -->\n"

/-- `StoryManager._generate_story_content`: the markdown story template,
heading line `# {story_id}: {title}` followed by the body.  `now` stands for
`datetime.now(timezone.utc).isoformat()`. -/
def generate_story_content (story_id title description now : String) : String :=
  "# " ++ story_id ++ ": " ++ title ++ "\n" ++ storyBody description now

/-- `StoryManager._extract_title_from_story`: find the first line starting
with `"# "`, strip the rest of the line, and if it contains `": "` return the
part after the first occurrence; fall back to the file stem when no heading
line exists. -/
def extract_title_from_story (content : String) (stem : String) : String :=
  match (splitLines content.data).find? (fun l => ['#', ' '].isPrefixOf l) with
  | some line =>
    match afterFirstColonSpace (pyStrip (line.drop 2)) with
    | some suffix => String.mk suffix
    | none => String.mk (pyStrip (line.drop 2))
  | none => stem

theorem splitLines_append_newline (l₁ l₂ : List Char) (h : '\n' ∉ l₁) :
    splitLines (l₁ ++ '\n' :: l₂) = l₁ :: splitLines l₂ := by
  induction l₁ with
  | nil => simp [splitLines]
  | cons c cs ih =>
    have hc : c ≠ '\n' := fun hc => h (hc ▸ List.mem_cons_self c cs)
    have hcs : '\n' ∉ cs := fun hm => h (List.mem_cons_of_mem c hm)
    rw [List.cons_append]
    simp only [splitLines]
    rw [if_neg hc, ih hcs]
    simp only [List.headD_cons, List.tail_cons]

theorem dropWhile_append_cons (p : Char → Bool) (l₁ : List Char) (c : Char)
    (l₂ : List Char) (h : p c = false) :
    List.dropWhile p (l₁ ++ c :: l₂) = List.dropWhile p l₁ ++ c :: l₂ := by
  induction l₁ with
  | nil => simp [List.dropWhile, h]
  | cons a as ih =>
    rw [List.cons_append]
    by_cases ha : p a
    · rw [List.dropWhile_cons_of_pos ha, List.dropWhile_cons_of_pos ha, ih]
    · rw [List.dropWhile_cons_of_neg (by simp [ha]), List.dropWhile_cons_of_neg (by simp [ha]),
        List.cons_append]

theorem dropWhile_append_of_fixed (p : Char → Bool) (l₁ l₂ : List Char)
    (hne : l₁ ≠ []) (hfix : l₁.dropWhile p = l₁) :
    List.dropWhile p (l₁ ++ l₂) = l₁ ++ l₂ := by
  obtain ⟨c, cs, rfl⟩ := List.exists_cons_of_ne_nil hne
  have hc : p c = false := by
    by_contra hpc
    have hpc' : p c = true := by simpa using hpc
    rw [List.dropWhile_cons_of_pos hpc'] at hfix
    have hlen := congrArg List.length hfix
    have hle := (List.dropWhile_sublist (p := p) (l := cs)).length_le
    simp at hlen
    omega
  rw [List.cons_append, List.dropWhile_cons_of_neg (by simp [hc])]

theorem afterFirstColonSpace_none_of_append {l₁ l₂ : List Char}
    (h : afterFirstColonSpace (l₁ ++ l₂) = none) :
    afterFirstColonSpace l₂ = none := by
  induction l₁ with
  | nil => simpa using h
  | cons c cs ih =>
    rw [List.cons_append] at h
    unfold afterFirstColonSpace at h
    split at h
    · exact absurd h (by simp)
    · exact ih h

theorem afterFirstColonSpace_junction (l t : List Char)
    (hno : afterFirstColonSpace l = none) :
    afterFirstColonSpace (l ++ ':' :: ' ' :: t) = some t := by
  induction l with
  | nil => simp [afterFirstColonSpace]
  | cons c cs ih =>
    unfold afterFirstColonSpace at hno
    split at hno
    · exact absurd hno (by simp)
    · next hcond =>
      rw [List.cons_append]
      unfold afterFirstColonSpace
      rw [if_neg ?_, ih hno]
      cases cs with
      | nil => simp
      | cons y ys =>
        intro hcontra
        exact hcond ⟨hcontra.1, by simpa using hcontra.2⟩

/-- C4 (amended): the create/extract round trip returns the title unchanged —
whether or not the title contains `": "` — provided the story id contains no
`": "` and no newline, and the title contains no newline, is nonempty, and has
no trailing whitespace.  The extractor splits the heading
`"# {id}: {title}"` at its *first* `": "`, which under these conditions is
exactly the id–title separator. -/
theorem extract_title_roundtrip (story_id title description now stem : String)
    (hid : afterFirstColonSpace story_id.data = none)
    (hidnl : '\n' ∉ story_id.data)
    (hnl : '\n' ∉ title.data)
    (hne : title.data ≠ [])
    (htrail : title.data.reverse.dropWhile isPySpace = title.data.reverse) :
    extract_title_from_story (generate_story_content story_id title description now) stem
      = title := by
  have hdata : (generate_story_content story_id title description now).data
      = ('#' :: ' ' :: (story_id.data ++ ':' :: ' ' :: title.data)) ++ '\n'
          :: (storyBody description now).data := by
    show ("# " ++ story_id ++ ": " ++ title ++ "\n" ++ storyBody description now).data = _
    simp only [String.data_append]
    show ['#', ' '] ++ story_id.data ++ [':', ' '] ++ title.data ++ ['\n']
        ++ (storyBody description now).data = _
    simp
  have hns : '\n' ∉ ('#' :: ' ' :: (story_id.data ++ ':' :: ' ' :: title.data)) := by
    intro h
    rcases List.mem_cons.mp h with h | h
    · exact absurd h (by decide)
    rcases List.mem_cons.mp h with h | h
    · exact absurd h (by decide)
    rcases List.mem_append.mp h with h | h
    · exact hidnl h
    rcases List.mem_cons.mp h with h | h
    · exact absurd h (by decide)
    rcases List.mem_cons.mp h with h | h
    · exact absurd h (by decide)
    · exact hnl h
  have h2 : (splitLines (generate_story_content story_id title description now).data).find?
        (fun l => ['#', ' '].isPrefixOf l)
      = some ('#' :: ' ' :: (story_id.data ++ ':' :: ' ' :: title.data)) := by
    rw [hdata, splitLines_append_newline _ _ hns]
    apply List.find?_cons_of_pos
    simp [List.isPrefixOf]
  have hstrip : pyStrip (story_id.data ++ ':' :: ' ' :: title.data)
      = (story_id.data.dropWhile isPySpace) ++ ':' :: ' ' :: title.data := by
    unfold pyStrip
    rw [dropWhile_append_cons isPySpace story_id.data ':' (' ' :: title.data) (by decide)]
    have hrev : ((story_id.data.dropWhile isPySpace) ++ ':' :: ' ' :: title.data).reverse
        = title.data.reverse ++ (' ' :: ':' :: (story_id.data.dropWhile isPySpace).reverse) := by
      simp
    rw [hrev,
      dropWhile_append_of_fixed isPySpace title.data.reverse _ (by simpa using hne) htrail]
    simp
  have hA : afterFirstColonSpace (story_id.data.dropWhile isPySpace) = none := by
    refine afterFirstColonSpace_none_of_append (show afterFirstColonSpace
        (story_id.data.takeWhile isPySpace ++ story_id.data.dropWhile isPySpace)
        = none from ?_)
    rw [List.takeWhile_append_dropWhile]
    exact hid
  have hafter : afterFirstColonSpace
        (pyStrip (('#' :: ' ' :: (story_id.data ++ ':' :: ' ' :: title.data)).drop 2))
      = some title.data := by
    show afterFirstColonSpace (pyStrip (story_id.data ++ ':' :: ' ' :: title.data)) = _
    rw [hstrip]
    exact afterFirstColonSpace_junction _ _ hA
  unfold extract_title_from_story
  rw [h2]
  show (match afterFirstColonSpace
          (pyStrip (('#' :: ' ' :: (story_id.data ++ ':' :: ' ' :: title.data)).drop 2)) with
        | some suffix => String.mk suffix
        | none => String.mk (pyStrip (('#' :: ' ' :: (story_id.data ++ ':' :: ' ' :: title.data)).drop 2))) = title
  rw [hafter]

/-- C4 counterexample: for the title `"a\nb"` — which does not contain `": "` —
the claimed round trip fails: the story file keeps only the first line of the
title in its heading, so extraction returns `"a"`, not the title unchanged. -/
theorem extract_title_roundtrip_counterexample :
    extract_title_from_story
        (generate_story_content "FILTE-1" "a\nb" "" "2024-01-01T00:00:00+00:00") "FILTE-1"
      = "a" ∧
    extract_title_from_story
        (generate_story_content "FILTE-1" "a\nb" "" "2024-01-01T00:00:00+00:00") "FILTE-1"
      ≠ "a\nb" := by
  constructor
  · decide
  · decide

/-- Witness for the amended C4 round trip at concrete inputs. -/
theorem extract_title_roundtrip_witness :
    afterFirstColonSpace "FILTE-1".data = none ∧
    '\n' ∉ "FILTE-1".data ∧
    '\n' ∉ "Fix: the parser".data ∧
    "Fix: the parser".data ≠ [] ∧
    "Fix: the parser".data.reverse.dropWhile isPySpace = "Fix: the parser".data.reverse ∧
    extract_title_from_story
        (generate_story_content "FILTE-1" "Fix: the parser" "d" "2024-01-01T00:00:00+00:00")
        "FILTE-1"
      = "Fix: the parser" :=
  ⟨by decide, by decide, by decide, by decide, by decide,
    extract_title_roundtrip "FILTE-1" "Fix: the parser" "d" "2024-01-01T00:00:00+00:00"
      "FILTE-1" (by decide) (by decide) (by decide) (by decide) (by decide)⟩

/-! ## The on-disk state model

A `.filter` project is a directory tree: the state directory itself, a
`stories/` collection of markdown files, a `kanban/<stage>/` directory of
symlinks per stage, a YAML `config.yml`, and a README.  The state below
records exactly the observable facts the Python code reads and writes.  A
symlink `kanban/<stage>/<id>.md` always points at `../../stories/<id>.md`
(both creation sites use that relative path), so a link is represented by its
`(stage, id)` pair, and `Path.exists()` on such a link — which follows the
symlink — holds iff the link is present and the story file `<id>.md` exists. -/

/-- The configuration record (`config.yml`).  The Python `prefix` key is named
`storyPrefix` here (`prefix` is a Lean keyword). -/
structure Config where
  project_name : String
  storyPrefix : String
  last_story_number : Nat
  created_at : String
  kanban_stages : List String
deriving DecidableEq, Repr

/-- A parsed YAML mapping: any subset of the configuration keys may be
present. -/
structure PartialConfig where
  project_name : Option String
  storyPrefix : Option String
  last_story_number : Option Nat
  created_at : Option String
  kanban_stages : Option (List String)
deriving DecidableEq, Repr

/-- The on-disk state of `config.yml`: missing, unreadable/unparsable, or a
parsed mapping. -/
inductive ConfigFile
  | absent
  | malformed
  | record (r : PartialConfig)
deriving DecidableEq, Repr

/-- Observable filesystem state of one project directory. -/
structure FSState where
  /-- `str(self.project_path)`, used in messages. -/
  project_path : String
  /-- `self.project_path.name`, the directory basename. -/
  project_name : String
  /-- The current `datetime.now(timezone.utc).isoformat()` value. -/
  now : String
  filterDirExists : Bool
  storiesDirExists : Bool
  kanbanDirExists : Bool
  /-- Which `kanban/<stage>/` directories exist. -/
  stageDirs : List String
  configFile : ConfigFile
  /-- The story files `stories/<id>.md`, as `(id, content)` pairs in
  directory order. -/
  stories : List (String × String)
  /-- The kanban symlinks, as `(stage, id)` pairs in directory order. -/
  links : List (String × String)
  readmeExists : Bool
  /-- Abstracts an `OSError` raised by the filesystem while iterating the
  kanban directories (caught by `list_stories`, which returns `[]`). -/
  ioError : Bool
deriving DecidableEq, Repr

/-- The fixed default stage list. -/
def defaultStages : List String :=
  ["planning", "in-progress", "testing", "pr", "complete"]

/-- The `default_config` dictionary of `StoryManager._load_config` (also the
initial record written by `ProjectManager._generate_config_content`). -/
def default_config (s : FSState) : Config :=
  { project_name := s.project_name
    storyPrefix := generatePrefix s.project_name
    last_story_number := 0
    created_at := s.now
    kanban_stages := defaultStages }

/-- A full record serialised to YAML: every key present. -/
def Config.toPartial (c : Config) : PartialConfig :=
  ⟨some c.project_name, some c.storyPrefix, some c.last_story_number,
    some c.created_at, some c.kanban_stages⟩

/-- The merge loop of `_load_config`: any key absent from the parsed record is
filled from the defaults, field by field. -/
def mergeConfig (r : PartialConfig) (d : Config) : Config :=
  { project_name := r.project_name.getD d.project_name
    storyPrefix := r.storyPrefix.getD d.storyPrefix
    last_story_number := r.last_story_number.getD d.last_story_number
    created_at := r.created_at.getD d.created_at
    kanban_stages := r.kanban_stages.getD d.kanban_stages }

/-- `StoryManager._load_config`: absent file → write defaults and return them;
parsed record → field-by-field merge with defaults, file untouched;
read/parse failure → defaults in memory only, file untouched.
(`yaml.safe_load(f) or {}` turns an empty file into the empty mapping, which
is the `record` case with every key `none`.) -/
def load_config (s : FSState) : Config × FSState :=
  match s.configFile with
  | .absent =>
    (default_config s, { s with configFile := .record (default_config s).toPartial })
  | .record r => (mergeConfig r (default_config s), s)
  | .malformed => (default_config s, s)

/-- `StoryManager._save_config`: serialise the full record, overwriting. -/
def save_config (c : Config) (s : FSState) : FSState :=
  { s with configFile := .record c.toPartial }

/-- `StoryManager._ensure_filter_structure`. -/
def ensure_filter_structure (s : FSState) : Bool × String :=
  if ¬ s.filterDirExists then
    (false, "No filter project found at " ++ s.project_path
      ++ ". Run 'filter project create' first.")
  else if ¬ s.storiesDirExists then
    (false, "Missing required directory: " ++ s.project_path
      ++ "/.filter/stories. Project structure may be corrupted.")
  else if ¬ s.kanbanDirExists then
    (false, "Missing required directory: " ++ s.project_path
      ++ "/.filter/kanban. Project structure may be corrupted.")
  else (true, "Filter structure verified")

/-- Python `", ".join(...)`. -/
def joinComma (l : List String) : String :=
  String.intercalate ", " l

/-- `StoryManager._get_next_story_number`: load the configuration, increment
`last_story_number`, save immediately, and return the new number with the id
`"{prefix}-{number}"`. -/
def get_next_story_number (s : FSState) : (Nat × String) × FSState :=
  let c := (load_config s).1
  let next_number := c.last_story_number + 1
  let story_id := c.storyPrefix ++ "-" ++ toString next_number
  ((next_number, story_id),
    save_config { c with last_story_number := next_number } (load_config s).2)

/-- The ids of the story files present in `stories/`. -/
def storyIds (s : FSState) : List String :=
  s.stories.map Prod.fst

/-- `Path.write_text`: overwrite the file if present, create it otherwise. -/
def setStory (stories : List (String × String)) (id content : String) :
    List (String × String) :=
  if stories.any (fun p => p.1 = id) then
    stories.map (fun p => if p.1 = id then (id, content) else p)
  else stories ++ [(id, content)]

/-- `StoryManager.create_story`.  The two try-block failure modes are a
missing target stage directory and an already-existing symlink (a raised
`OSError`/`FileExistsError`, caught and reported); in both, the story file
already written and the consumed story number are *not* rolled back. -/
def create_story (title description stage : String) (s : FSState) :
    (Bool × String) × FSState :=
  if (ensure_filter_structure s).1 = false then
    ((false, (ensure_filter_structure s).2), s)
  else
    let c := (load_config s).1
    let s₁ := (load_config s).2
    if stage ∉ c.kanban_stages then
      ((false, "Invalid stage '" ++ stage ++ "'. Valid stages: "
        ++ joinComma c.kanban_stages), s₁)
    else
      let r := get_next_story_number s₁
      let story_id := r.1.2
      let s₂ := r.2
      let s₃ := { s₂ with
        stories := setStory s₂.stories story_id
          (generate_story_content story_id title description s.now) }
      if stage ∉ s₃.stageDirs then
        ((false, "Failed to create story: stage directory missing"), s₃)
      else if (stage, story_id) ∈ s₃.links then
        ((false, "Failed to create story: symlink exists"), s₃)
      else
        ((true, "Created story " ++ story_id ++ ": " ++ title),
          { s₃ with links := s₃.links ++ [(stage, story_id)] })

/-- `StoryManager.delete_story`: remove the symlink named `<id>.md` from every
*configured* stage directory where `Path.exists()` holds (the story file is
still present at that point, so that is exactly link presence), then remove
the story file. -/
def delete_story (story_id : String) (s : FSState) : (Bool × String) × FSState :=
  if (ensure_filter_structure s).1 = false then
    ((false, (ensure_filter_structure s).2), s)
  else if ¬ s.stories.any (fun p => p.1 = story_id) then
    ((false, "Story " ++ story_id ++ " not found"), s)
  else
    let c := (load_config s).1
    let s₁ := (load_config s).2
    let removed_stages := c.kanban_stages.filter (fun st => (st, story_id) ∈ s₁.links)
    let s₂ := { s₁ with
      links := s₁.links.filter
        (fun p => decide (¬ (p.2 = story_id ∧ p.1 ∈ c.kanban_stages)))
      stories := s₁.stories.filter (fun p => decide (p.1 ≠ story_id)) }
    ((true, "Deleted story " ++ story_id ++
      (if removed_stages = [] then ""
       else " (was in " ++ joinComma removed_stages ++ ")")), s₂)

/-- One story record of `list_stories`. -/
structure StoryRec where
  id : String
  title : String
  stage : String
deriving DecidableEq, Repr

/-- The inner loop of `list_stories` over one existing stage directory: every
`*.md` symlink whose target story file exists yields a record. -/
def stage_listing (s : FSState) (check_stage : String) : List StoryRec :=
  (s.links.filter (fun p => decide (p.1 = check_stage))).filterMap
    (fun p =>
      match s.stories.lookup p.2 with
      | some content =>
        some ⟨p.2, extract_title_from_story content p.2, check_stage⟩
      | none => none)

/-- `StoryManager.list_stories`: empty on a failed structure check or on an
`OSError` during iteration; otherwise the records of the requested stage, or
of every configured stage in configured order. -/
def list_stories (stageArg : Option String) (s : FSState) :
    List StoryRec × FSState :=
  if (ensure_filter_structure s).1 = false then ([], s)
  else
    let c := (load_config s).1
    let s₁ := (load_config s).2
    if s.ioError then ([], s₁)
    else
      let stages_to_check := match stageArg with
        | some st => [st]
        | none => c.kanban_stages
      (stages_to_check.foldl (fun acc check_stage =>
        if check_stage ∉ s₁.stageDirs then acc
        else acc ++ stage_listing s₁ check_stage) [], s₁)

/-- The `move` command of `story_cli.py` (CLI exceptions are modelled as
failure results): validate the target stage against the configuration, check
the story file exists, unlink the story's symlink from every configured stage,
then symlink it into the target stage directory. -/
def move_story (story_id target_stage : String) (s : FSState) :
    (Bool × String) × FSState :=
  if (ensure_filter_structure s).1 = false then
    ((false, "No filter project found. Run 'filter project create' first."), s)
  else
    let c := (load_config s).1
    let s₁ := (load_config s).2
    if target_stage ∉ c.kanban_stages then
      ((false, "Invalid stage '" ++ target_stage ++ "'. Valid stages: "
        ++ joinComma c.kanban_stages), s₁)
    else if ¬ s₁.stories.any (fun p => p.1 = story_id) then
      ((false, "Story " ++ story_id ++ " not found"), s₁)
    else
      let removed_from := c.kanban_stages.filter (fun st => (st, story_id) ∈ s₁.links)
      let s₂ := { s₁ with
        links := s₁.links.filter
          (fun p => decide (¬ (p.2 = story_id ∧ p.1 ∈ c.kanban_stages))) }
      if target_stage ∉ s₂.stageDirs then
        ((false, "Failed to move story: stage directory missing"), s₂)
      else if (target_stage, story_id) ∈ s₂.links then
        ((false, "Failed to move story: symlink exists"), s₂)
      else
        ((true, "Moved story " ++ story_id ++
          (if removed_from = [] then "" else " from " ++ joinComma removed_from) ++
          " to " ++ target_stage),
          { s₂ with links := s₂.links ++ [(target_stage, story_id)] })

/-- `ProjectManager.create_project_structure`: refuse if the state directory
exists; otherwise create the skeleton (all directories fresh and empty), the
initial full configuration record, and the README. -/
def create_project_structure (s : FSState) : (Bool × String) × FSState :=
  if s.filterDirExists then
    ((false, "Filter project already exists at " ++ s.project_path ++ "/.filter"), s)
  else
    ((true, "Filter project created successfully at " ++ s.project_path ++ "/.filter"),
      { s with
        filterDirExists := true
        kanbanDirExists := true
        storiesDirExists := true
        stageDirs := defaultStages
        configFile := .record (default_config s).toPartial
        stories := []
        links := []
        readmeExists := true })

/-- `ProjectManager.delete_project_structure`. -/
def delete_project_structure (force : Bool) (s : FSState) :
    (Bool × String) × FSState :=
  if ¬ s.filterDirExists then
    ((false, "No filter project found at " ++ s.project_path ++ "/.filter"), s)
  else if ¬ force ∧ s.storiesDirExists ∧ s.stories ≠ [] then
    ((false, "Project contains " ++ toString s.stories.length
      ++ " stories. Use --force to delete anyway."), s)
  else
    ((true, "Filter project deleted successfully from " ++ s.project_path),
      { s with
        filterDirExists := false
        kanbanDirExists := false
        storiesDirExists := false
        stageDirs := []
        configFile := .absent
        stories := []
        links := []
        readmeExists := false })

/-! ## Concrete states used by witnesses -/

/-- A directory with no `.filter` project in it. -/
def emptyProject : FSState :=
  { project_path := "/work/demo"
    project_name := "demo"
    now := "2024-01-01T00:00:00+00:00"
    filterDirExists := false
    storiesDirExists := false
    kanbanDirExists := false
    stageDirs := []
    configFile := .absent
    stories := []
    links := []
    readmeExists := false
    ioError := false }

/-- The state right after `create_project_structure` on an empty directory:
a fresh project with `last_story_number = 0`. -/
def freshProject : FSState := (create_project_structure emptyProject).2

/-! ## C6: creating a project over an existing one -/

/-- C6: whenever the state directory already exists,
`create_project_structure` fails with the "already exists" message and the
state is unchanged (no filesystem mutation at all). -/
theorem create_project_structure_existing (s : FSState)
    (h : s.filterDirExists = true) :
    (create_project_structure s).1.1 = false ∧
    (create_project_structure s).1.2
      = "Filter project already exists at " ++ s.project_path ++ "/.filter" ∧
    (create_project_structure s).2 = s := by
  simp [create_project_structure, h]

/-- Witness for C6 on the concrete fresh project. -/
theorem create_project_structure_existing_witness :
    freshProject.filterDirExists = true ∧
    ((create_project_structure freshProject).1.1 = false ∧
     (create_project_structure freshProject).1.2
       = "Filter project already exists at " ++ freshProject.project_path ++ "/.filter" ∧
     (create_project_structure freshProject).2 = freshProject) :=
  ⟨by decide, create_project_structure_existing freshProject (by decide)⟩

/-! ## C7: deleting a project -/

/-- C7: on a project whose stories collection is non-empty,
`delete_project_structure` without `force` fails, reports the story count, and
changes nothing; with `force` on an existing project the whole state
directory is removed; and it fails when the state directory is missing. -/
theorem delete_project_structure_correct (s : FSState) :
    (s.filterDirExists = true → s.storiesDirExists = true → s.stories ≠ [] →
      (delete_project_structure false s).1.1 = false ∧
      (delete_project_structure false s).1.2
        = "Project contains " ++ toString s.stories.length
          ++ " stories. Use --force to delete anyway." ∧
      (delete_project_structure false s).2 = s) ∧
    (s.filterDirExists = true →
      (delete_project_structure true s).1.1 = true ∧
      (delete_project_structure true s).2.filterDirExists = false ∧
      (delete_project_structure true s).2.storiesDirExists = false ∧
      (delete_project_structure true s).2.kanbanDirExists = false ∧
      (delete_project_structure true s).2.stories = [] ∧
      (delete_project_structure true s).2.links = [] ∧
      (delete_project_structure true s).2.stageDirs = [] ∧
      (delete_project_structure true s).2.configFile = .absent ∧
      (delete_project_structure true s).2.readmeExists = false) ∧
    (s.filterDirExists = false → ∀ force,
      (delete_project_structure force s).1.1 = false ∧
      (delete_project_structure force s).2 = s) := by
  refine ⟨?_, ?_, ?_⟩
  · intro h1 h2 h3
    simp [delete_project_structure, h1, h2, h3]
  · intro h1
    simp [delete_project_structure, h1]
  · intro h1 force
    simp [delete_project_structure, h1]

/-- A fresh project holding one story. -/
def storyState : FSState := (create_story "T" "" "planning" freshProject).2

/-- Witness for C7: the hypotheses hold and the conclusions follow on a
concrete project with one story (first two scenarios) and on a projectless
directory (third scenario). -/
theorem delete_project_structure_correct_witness :
    (storyState.filterDirExists = true ∧ storyState.storiesDirExists = true ∧
      storyState.stories ≠ []) ∧
    ((delete_project_structure false storyState).1.1 = false ∧
      (delete_project_structure false storyState).1.2
        = "Project contains " ++ toString storyState.stories.length
          ++ " stories. Use --force to delete anyway." ∧
      (delete_project_structure false storyState).2 = storyState) ∧
    ((delete_project_structure true storyState).1.1 = true ∧
      (delete_project_structure true storyState).2.filterDirExists = false ∧
      (delete_project_structure true storyState).2.storiesDirExists = false ∧
      (delete_project_structure true storyState).2.kanbanDirExists = false ∧
      (delete_project_structure true storyState).2.stories = [] ∧
      (delete_project_structure true storyState).2.links = [] ∧
      (delete_project_structure true storyState).2.stageDirs = [] ∧
      (delete_project_structure true storyState).2.configFile = .absent ∧
      (delete_project_structure true storyState).2.readmeExists = false) ∧
    (emptyProject.filterDirExists = false ∧
      (delete_project_structure false emptyProject).1.1 = false ∧
      (delete_project_structure false emptyProject).2 = emptyProject) :=
  ⟨⟨by decide, by decide, by decide⟩,
    (delete_project_structure_correct storyState).1 (by decide) (by decide) (by decide),
    (delete_project_structure_correct storyState).2.1 (by decide),
    by decide,
    ((delete_project_structure_correct emptyProject).2.2 (by decide) false).1,
    ((delete_project_structure_correct emptyProject).2.2 (by decide) false).2⟩

/-! ## C8: configuration loading -/

/-- C8: `_load_config` creates and persists the defaults when the file is
absent; merges a parsed record with the defaults field by field (a present key
wins, an absent key is filled from the defaults) without touching the file;
and on a parse/read failure uses the defaults in memory only, leaving the file
alone. -/
theorem load_config_correct (s : FSState) :
    (s.configFile = .absent →
      (load_config s).1 = default_config s ∧
      (load_config s).2
        = { s with configFile := .record (default_config s).toPartial }) ∧
    (∀ r, s.configFile = .record r →
      (load_config s).2 = s ∧
      ((load_config s).1.project_name
          = r.project_name.getD (default_config s).project_name) ∧
      ((load_config s).1.storyPrefix
          = r.storyPrefix.getD (default_config s).storyPrefix) ∧
      ((load_config s).1.last_story_number
          = r.last_story_number.getD (default_config s).last_story_number) ∧
      ((load_config s).1.created_at
          = r.created_at.getD (default_config s).created_at) ∧
      ((load_config s).1.kanban_stages
          = r.kanban_stages.getD (default_config s).kanban_stages)) ∧
    (s.configFile = .malformed →
      (load_config s).1 = default_config s ∧ (load_config s).2 = s) := by
  refine ⟨?_, ?_, ?_⟩
  · intro h
    simp [load_config, h]
  · intro r h
    simp [load_config, h, mergeConfig]
  · intro h
    simp [load_config, h]

/-- A configuration file holding only some of the keys. -/
def partialDemoRecord : PartialConfig :=
  ⟨none, some "DEMOX", some 7, none, none⟩

/-- A project state whose configuration file is the partial record above. -/
def partialDemoState : FSState :=
  { emptyProject with configFile := .record partialDemoRecord }

/-- Witness for C8 on a partial record: `last_story_number` is taken from the
file, the missing `kanban_stages` key is filled from the defaults. -/
theorem load_config_correct_witness :
    partialDemoState.configFile = .record partialDemoRecord ∧
    (load_config partialDemoState).1.last_story_number = 7 ∧
    (load_config partialDemoState).1.kanban_stages = defaultStages ∧
    (load_config partialDemoState).2 = partialDemoState := by
  have h := (load_config_correct partialDemoState).2.1 partialDemoRecord rfl
  refine ⟨rfl, ?_, ?_, h.1⟩
  · rw [h.2.2.2.1]
    rfl
  · rw [h.2.2.2.2.2]
    rfl

/-! ## Basic lemmas about configuration load/save -/

@[simp] theorem load_config_snd_project_path (s : FSState) :
    ((load_config s).2).project_path = s.project_path := by
  cases hc : s.configFile <;> simp [load_config, hc]

@[simp] theorem load_config_snd_project_name (s : FSState) :
    ((load_config s).2).project_name = s.project_name := by
  cases hc : s.configFile <;> simp [load_config, hc]

@[simp] theorem load_config_snd_now (s : FSState) :
    ((load_config s).2).now = s.now := by
  cases hc : s.configFile <;> simp [load_config, hc]

@[simp] theorem load_config_snd_filterDirExists (s : FSState) :
    ((load_config s).2).filterDirExists = s.filterDirExists := by
  cases hc : s.configFile <;> simp [load_config, hc]

@[simp] theorem load_config_snd_storiesDirExists (s : FSState) :
    ((load_config s).2).storiesDirExists = s.storiesDirExists := by
  cases hc : s.configFile <;> simp [load_config, hc]

@[simp] theorem load_config_snd_kanbanDirExists (s : FSState) :
    ((load_config s).2).kanbanDirExists = s.kanbanDirExists := by
  cases hc : s.configFile <;> simp [load_config, hc]

@[simp] theorem load_config_snd_stageDirs (s : FSState) :
    ((load_config s).2).stageDirs = s.stageDirs := by
  cases hc : s.configFile <;> simp [load_config, hc]

@[simp] theorem load_config_snd_stories (s : FSState) :
    ((load_config s).2).stories = s.stories := by
  cases hc : s.configFile <;> simp [load_config, hc]

@[simp] theorem load_config_snd_links (s : FSState) :
    ((load_config s).2).links = s.links := by
  cases hc : s.configFile <;> simp [load_config, hc]

@[simp] theorem load_config_snd_ioError (s : FSState) :
    ((load_config s).2).ioError = s.ioError := by
  cases hc : s.configFile <;> simp [load_config, hc]

@[simp] theorem default_config_load_snd (s : FSState) :
    default_config ((load_config s).2) = default_config s := by
  cases hc : s.configFile <;> simp [default_config, load_config, hc]

@[simp] theorem mergeConfig_toPartial (c d : Config) : mergeConfig c.toPartial d = c := rfl

/-- Loading twice returns the same configuration; the second load does not
change the state further. -/
@[simp] theorem load_config_idem (s : FSState) :
    load_config ((load_config s).2) = ((load_config s).1, (load_config s).2) := by
  cases hc : s.configFile with
  | absent =>
    simp [load_config, hc, mergeConfig_toPartial, default_config]
  | malformed => simp [load_config, hc]
  | record r => simp [load_config, hc]

/-- Loading right after a save returns exactly the saved configuration. -/
@[simp] theorem load_config_save (c : Config) (s : FSState) :
    load_config (save_config c s) = (c, save_config c s) := by
  simp [load_config, save_config, mergeConfig_toPartial, default_config]

@[simp] theorem save_config_stories (c : Config) (s : FSState) :
    (save_config c s).stories = s.stories := rfl

@[simp] theorem save_config_links (c : Config) (s : FSState) :
    (save_config c s).links = s.links := rfl

@[simp] theorem save_config_stageDirs (c : Config) (s : FSState) :
    (save_config c s).stageDirs = s.stageDirs := rfl

@[simp] theorem save_config_filterDirExists (c : Config) (s : FSState) :
    (save_config c s).filterDirExists = s.filterDirExists := rfl

@[simp] theorem save_config_storiesDirExists (c : Config) (s : FSState) :
    (save_config c s).storiesDirExists = s.storiesDirExists := rfl

@[simp] theorem save_config_kanbanDirExists (c : Config) (s : FSState) :
    (save_config c s).kanbanDirExists = s.kanbanDirExists := rfl

@[simp] theorem save_config_project_path (c : Config) (s : FSState) :
    (save_config c s).project_path = s.project_path := rfl

@[simp] theorem save_config_project_name (c : Config) (s : FSState) :
    (save_config c s).project_name = s.project_name := rfl

@[simp] theorem save_config_now (c : Config) (s : FSState) :
    (save_config c s).now = s.now := rfl

@[simp] theorem save_config_readmeExists (c : Config) (s : FSState) :
    (save_config c s).readmeExists = s.readmeExists := rfl

@[simp] theorem save_config_ioError (c : Config) (s : FSState) :
    (save_config c s).ioError = s.ioError := rfl

@[simp] theorem save_config_configFile (c : Config) (s : FSState) :
    (save_config c s).configFile = .record c.toPartial := rfl

/-- Loading from a state whose file is a parsed record merges that record
with the defaults. -/
@[simp] theorem load_config_fst_record (t : FSState) (r : PartialConfig)
    (h : t.configFile = .record r) :
    (load_config t).1 = mergeConfig r (default_config t) := by
  simp [load_config, h]

/-- The structure precondition as a proposition. -/
def structureOk (s : FSState) : Prop :=
  s.filterDirExists = true ∧ s.storiesDirExists = true ∧ s.kanbanDirExists = true

instance (s : FSState) : Decidable (structureOk s) := by
  unfold structureOk
  infer_instance

theorem ensure_filter_structure_ok (s : FSState) :
    (ensure_filter_structure s).1 = true ↔ structureOk s := by
  unfold ensure_filter_structure structureOk
  by_cases h1 : s.filterDirExists <;> by_cases h2 : s.storiesDirExists <;>
    by_cases h3 : s.kanbanDirExists <;> simp [h1, h2, h3]

/-! ## C10: invalid stage on story creation -/

/-- C10: with a stage outside the configured `kanban_stages`, `create_story`
fails before allocating a story number: the effective `last_story_number` is
unchanged, and no story file or symlink is created or altered. -/
theorem create_story_invalid_stage (title description stage : String) (s : FSState)
    (hstage : stage ∉ (load_config s).1.kanban_stages) :
    (create_story title description stage s).1.1 = false ∧
    (create_story title description stage s).2.stories = s.stories ∧
    (create_story title description stage s).2.links = s.links ∧
    (load_config (create_story title description stage s).2).1.last_story_number
      = (load_config s).1.last_story_number := by
  by_cases hok : (ensure_filter_structure s).1 = false
  · simp [create_story, hok]
  · simp [create_story, hok, hstage]

/-- Witness for C10: creating a story in stage `"bogus"` on the fresh project
fails and allocates nothing. -/
theorem create_story_invalid_stage_witness :
    "bogus" ∉ (load_config freshProject).1.kanban_stages ∧
    ((create_story "T" "" "bogus" freshProject).1.1 = false ∧
     (create_story "T" "" "bogus" freshProject).2.stories = freshProject.stories ∧
     (create_story "T" "" "bogus" freshProject).2.links = freshProject.links ∧
     (load_config (create_story "T" "" "bogus" freshProject).2).1.last_story_number
       = (load_config freshProject).1.last_story_number) :=
  ⟨by decide, create_story_invalid_stage "T" "" "bogus" freshProject (by decide)⟩

/-! ## Decimal numerals: `Nat.repr` is injective

Story ids are `f"{prefix}-{number}"`; distinctness of ids issued for distinct
numbers reduces to injectivity of the decimal numeral printer. -/

/-- Reference big-endian decimal digits of `n`. -/
def decimalDigits (n : Nat) : List Char :=
  if _h : n < 10 then [Nat.digitChar n]
  else decimalDigits (n / 10) ++ [Nat.digitChar (n % 10)]
decreasing_by exact Nat.div_lt_self (by omega) (by omega)

theorem decimalDigits_lt {n : Nat} (h : n < 10) :
    decimalDigits n = [Nat.digitChar n] := by
  rw [decimalDigits]
  exact dif_pos h

theorem decimalDigits_ge {n : Nat} (h : ¬ n < 10) :
    decimalDigits n = decimalDigits (n / 10) ++ [Nat.digitChar (n % 10)] := by
  rw [decimalDigits]
  exact dif_neg h

theorem toDigitsCore_eq_decimalDigits (fuel : Nat) :
    ∀ (n : Nat) (ds : List Char), 0 < fuel → n < 10 ^ fuel →
      Nat.toDigitsCore 10 fuel n ds = decimalDigits n ++ ds := by
  induction fuel with
  | zero => omega
  | succ f ih =>
    intro n ds _ hlt
    by_cases hn : n < 10
    · have h10 : n / 10 = 0 := Nat.div_eq_of_lt hn
      have hmod : n % 10 = n := Nat.mod_eq_of_lt hn
      simp [Nat.toDigitsCore, h10, hmod, decimalDigits_lt hn]
    · have h10 : ¬ n / 10 = 0 := by
        intro hz
        have := Nat.div_add_mod n 10
        have hmlt : n % 10 < 10 := Nat.mod_lt n (by omega)
        omega
      have hf : 0 < f := by
        rcases Nat.eq_zero_or_pos f with hf0 | hf0
        · subst hf0
          simp at hlt
          omega
        · exact hf0
      have hdiv : n / 10 < 10 ^ f := by
        rw [Nat.div_lt_iff_lt_mul (by omega)]
        calc n < 10 ^ (f + 1) := hlt
          _ = 10 ^ f * 10 := by rw [Nat.pow_succ]
      have := ih (n / 10) (Nat.digitChar (n % 10) :: ds) hf hdiv
      simp only [Nat.toDigitsCore, h10, if_neg h10, this, decimalDigits_ge hn]
      simp

theorem repr_data_eq_decimalDigits (n : Nat) :
    (Nat.repr n).data = decimalDigits n := by
  have hpow : n < 10 ^ (n + 1) := by
    calc n < 2 ^ n := Nat.lt_two_pow n
      _ ≤ 10 ^ n := Nat.pow_le_pow_left (by omega) n
      _ ≤ 10 ^ (n + 1) := Nat.pow_le_pow_right (by omega) (Nat.le_succ n)
  show (Nat.toDigits 10 n).asString.data = decimalDigits n
  unfold Nat.toDigits
  rw [toDigitsCore_eq_decimalDigits (n + 1) n [] (by omega) hpow]
  simp [List.asString]

/-- Decode a big-endian digit string. -/
def decodeDecimal (l : List Char) : Nat :=
  l.foldl (fun acc c => acc * 10 + (c.toNat - 48)) 0

theorem digitChar_toNat_sub {k : Nat} (h : k < 10) :
    (Nat.digitChar k).toNat - 48 = k := by
  interval_cases k <;> rfl

theorem decodeDecimal_decimalDigits (n : Nat) :
    decodeDecimal (decimalDigits n) = n := by
  induction n using Nat.strong_induction_on with
  | _ n ih =>
    by_cases h : n < 10
    · rw [decimalDigits_lt h]
      show 0 * 10 + ((Nat.digitChar n).toNat - 48) = n
      rw [digitChar_toNat_sub h]
      omega
    · rw [decimalDigits_ge h]
      unfold decodeDecimal
      rw [List.foldl_append]
      have hdiv := ih (n / 10) (Nat.div_lt_self (by omega) (by omega))
      unfold decodeDecimal at hdiv
      rw [hdiv]
      show n / 10 * 10 + ((Nat.digitChar (n % 10)).toNat - 48) = n
      rw [digitChar_toNat_sub (Nat.mod_lt n (by omega))]
      omega

theorem natRepr_injective {a b : Nat} (h : Nat.repr a = Nat.repr b) : a = b := by
  have hd : (Nat.repr a).data = (Nat.repr b).data := by rw [h]
  rw [repr_data_eq_decimalDigits, repr_data_eq_decimalDigits] at hd
  have := congrArg decodeDecimal hd
  rwa [decodeDecimal_decimalDigits, decodeDecimal_decimalDigits] at this

/-- Story ids as produced by `_get_next_story_number`. -/
def mkStoryId (p : String) (k : Nat) : String :=
  p ++ "-" ++ toString k

theorem mkStoryId_inj (p : String) {k₁ k₂ : Nat}
    (h : mkStoryId p k₁ = mkStoryId p k₂) : k₁ = k₂ := by
  unfold mkStoryId at h
  have hd := congrArg String.data h
  simp only [String.data_append, List.append_assoc] at hd
  have h2 := List.append_cancel_left hd
  have h3 := List.append_cancel_left h2
  apply natRepr_injective
  show Nat.repr k₁ = Nat.repr k₂
  have hdd : (Nat.repr k₁).data = (Nat.repr k₂).data := h3
  cases hr1 : Nat.repr k₁
  cases hr2 : Nat.repr k₂
  rw [hr1, hr2] at hdd
  exact congrArg String.mk (by simpa using hdd)

/-! ## The reachable-state invariant -/

/-- Loading a configuration only looks at the file, the directory basename and
the clock; states agreeing on those load the same configuration. -/
theorem load_config_fst_congr (s t : FSState) (hc : t.configFile = s.configFile)
    (hn : t.project_name = s.project_name) (hnow : t.now = s.now) :
    (load_config t).1 = (load_config s).1 := by
  cases hcs : s.configFile with
  | absent => simp [load_config, hc, hcs, default_config, hn, hnow]
  | malformed => simp [load_config, hc, hcs, default_config, hn, hnow]
  | record r => simp [load_config, hc, hcs, default_config, hn, hnow]

/-- The invariant over states maintained by the story operations:
the directory skeleton is intact; no story id has more than one stage
symlink; every symlink sits in a configured stage and is named by an id the
counter has issued; every story file is named by an issued id; and every
configured stage has its directory. -/
def Inv (s : FSState) : Prop :=
  structureOk s ∧
  (s.links.map Prod.snd).Nodup ∧
  (∀ p ∈ s.links, p.1 ∈ (load_config s).1.kanban_stages) ∧
  (∀ p ∈ s.links, ∃ k ∈ List.range ((load_config s).1.last_story_number + 1),
      1 ≤ k ∧ p.2 = mkStoryId (load_config s).1.storyPrefix k) ∧
  (∀ q ∈ s.stories, ∃ k ∈ List.range ((load_config s).1.last_story_number + 1),
      1 ≤ k ∧ q.1 = mkStoryId (load_config s).1.storyPrefix k) ∧
  (∀ st ∈ (load_config s).1.kanban_stages, st ∈ s.stageDirs)

instance (s : FSState) : Decidable (Inv s) := by
  unfold Inv structureOk
  infer_instance

/-- The implicit configuration write of a load changes nothing observable:
the invariant carries over to the post-load state. -/
theorem inv_load_config {s : FSState} (h : Inv s) : Inv ((load_config s).2) := by
  obtain ⟨h1, h2, h3, h4, h5, h6⟩ := h
  have hfst : (load_config ((load_config s).2)).1 = (load_config s).1 := by
    rw [load_config_idem]
  refine ⟨?_, ?_, ?_, ?_, ?_, ?_⟩
  · unfold structureOk at h1 ⊢
    simp only [load_config_snd_filterDirExists, load_config_snd_storiesDirExists,
      load_config_snd_kanbanDirExists]
    exact h1
  · simpa only [load_config_snd_links] using h2
  · simpa only [load_config_snd_links, hfst] using h3
  · simpa only [load_config_snd_links, hfst] using h4
  · simpa only [load_config_snd_stories, hfst] using h5
  · simpa only [load_config_snd_stageDirs, hfst] using h6

/-- Success-path characterization of `create_story`: with an intact structure,
a configured stage whose directory exists, and no pre-existing symlink under
the freshly issued id, the call succeeds, writes the story file, appends the
one symlink, bumps the persisted counter by one, and touches nothing else. -/
theorem create_story_success (title description stage : String) (s : FSState)
    (hok : structureOk s)
    (hstage : stage ∈ (load_config s).1.kanban_stages)
    (hdir : stage ∈ s.stageDirs)
    (hfresh : (stage, mkStoryId (load_config s).1.storyPrefix
        ((load_config s).1.last_story_number + 1)) ∉ s.links) :
    (create_story title description stage s).1
      = (true, "Created story "
          ++ mkStoryId (load_config s).1.storyPrefix ((load_config s).1.last_story_number + 1)
          ++ ": " ++ title) ∧
    (create_story title description stage s).2.stories
      = setStory s.stories
          (mkStoryId (load_config s).1.storyPrefix ((load_config s).1.last_story_number + 1))
          (generate_story_content
            (mkStoryId (load_config s).1.storyPrefix ((load_config s).1.last_story_number + 1))
            title description s.now) ∧
    (create_story title description stage s).2.links
      = s.links ++ [(stage, mkStoryId (load_config s).1.storyPrefix
          ((load_config s).1.last_story_number + 1))] ∧
    (create_story title description stage s).2.stageDirs = s.stageDirs ∧
    (create_story title description stage s).2.filterDirExists = s.filterDirExists ∧
    (create_story title description stage s).2.storiesDirExists = s.storiesDirExists ∧
    (create_story title description stage s).2.kanbanDirExists = s.kanbanDirExists ∧
    (create_story title description stage s).2.project_name = s.project_name ∧
    (create_story title description stage s).2.now = s.now ∧
    (create_story title description stage s).2.ioError = s.ioError ∧
    (load_config (create_story title description stage s).2).1
      = { (load_config s).1 with
          last_story_number := (load_config s).1.last_story_number + 1 } := by
  have hens : ¬ (ensure_filter_structure s).1 = false := by
    rw [(ensure_filter_structure_ok s).mpr hok]
    simp
  have hfresh' : ((stage, (load_config s).1.storyPrefix ++ "-"
      ++ toString ((load_config s).1.last_story_number + 1)) ∈ s.links) = False := by
    simp only [mkStoryId] at hfresh
    simp [hfresh]
  simp [create_story, get_next_story_number, hens, hstage, hdir, hfresh',
    mkStoryId, mergeConfig_toPartial]

theorem setStory_fst {l : List (String × String)} {id c : String} :
    ∀ q ∈ setStory l id c, q.1 = id ∨ ∃ q' ∈ l, q'.1 = q.1 := by
  intro q hq
  unfold setStory at hq
  split at hq
  · rw [List.mem_map] at hq
    obtain ⟨p, hp, hpq⟩ := hq
    by_cases hpid : p.1 = id
    · rw [if_pos hpid] at hpq
      left
      rw [← hpq]
    · rw [if_neg hpid] at hpq
      right
      exact ⟨p, hp, by rw [hpq]⟩
  · rw [List.mem_append] at hq
    rcases hq with hq | hq
    · exact Or.inr ⟨q, hq, rfl⟩
    · left
      rw [List.mem_singleton] at hq
      rw [hq]

/-- `create_story` preserves the invariant (for any arguments). -/
theorem inv_create_story {s : FSState} (h : Inv s) (title description stage : String) :
    Inv ((create_story title description stage s).2) := by
  obtain ⟨h1, h2, h3, h4, h5, h6⟩ := h
  by_cases hstage : stage ∈ (load_config s).1.kanban_stages
  · have hdir : stage ∈ s.stageDirs := h6 stage hstage
    have hfresh : (stage, mkStoryId (load_config s).1.storyPrefix
        ((load_config s).1.last_story_number + 1)) ∉ s.links := by
      intro hmem
      obtain ⟨k, hk, _hk1, hkid⟩ := h4 _ hmem
      rw [List.mem_range] at hk
      have := mkStoryId_inj _ hkid
      omega
    obtain ⟨_hres, hstories, hlinks, hstgd, hf, hsd, hkd, _hpn, _hnow, _hio, hcfg⟩ :=
      create_story_success title description stage s h1 hstage hdir hfresh
    have hlast : (load_config (create_story title description stage s).2).1.last_story_number
        = (load_config s).1.last_story_number + 1 := by rw [hcfg]
    have hstagescfg : (load_config (create_story title description stage s).2).1.kanban_stages
        = (load_config s).1.kanban_stages := by rw [hcfg]
    have hprefix : (load_config (create_story title description stage s).2).1.storyPrefix
        = (load_config s).1.storyPrefix := by rw [hcfg]
    have hnewid : mkStoryId (load_config s).1.storyPrefix
        ((load_config s).1.last_story_number + 1) ∉ s.links.map Prod.snd := by
      intro hmem
      rw [List.mem_map] at hmem
      obtain ⟨p, hp, hpid⟩ := hmem
      obtain ⟨k, hk, _hk1, hkid⟩ := h4 p hp
      rw [List.mem_range] at hk
      rw [hpid] at hkid
      have := mkStoryId_inj _ hkid
      omega
    refine ⟨⟨by rw [hf]; exact h1.1, by rw [hsd]; exact h1.2.1,
      by rw [hkd]; exact h1.2.2.trans rfl⟩, ?_, ?_, ?_, ?_, ?_⟩
    · rw [hlinks, List.map_append]
      refine List.Nodup.append h2 (List.nodup_singleton _) ?_
      intro a ha hb
      simp only [List.map_cons, List.map_nil, List.mem_singleton] at hb
      rw [hb] at ha
      exact hnewid ha
    · intro p hp
      rw [hlinks, List.mem_append] at hp
      rw [hstagescfg]
      rcases hp with hp | hp
      · exact h3 p hp
      · rw [List.mem_singleton] at hp
        rw [hp]
        exact hstage
    · intro p hp
      rw [hlinks, List.mem_append] at hp
      rw [hlast, hprefix]
      rcases hp with hp | hp
      · obtain ⟨k, hk, hk1, hkid⟩ := h4 p hp
        rw [List.mem_range] at hk
        exact ⟨k, List.mem_range.mpr (by omega), hk1, hkid⟩
      · rw [List.mem_singleton] at hp
        rw [hp]
        exact ⟨(load_config s).1.last_story_number + 1,
          List.mem_range.mpr (by omega), by omega, rfl⟩
    · intro q hq
      rw [hstories] at hq
      rw [hlast, hprefix]
      rcases setStory_fst q hq with hq1 | ⟨q', hq', hq1⟩
      · rw [hq1]
        exact ⟨(load_config s).1.last_story_number + 1,
          List.mem_range.mpr (by omega), by omega, rfl⟩
      · obtain ⟨k, hk, hk1, hkid⟩ := h5 q' hq'
        rw [List.mem_range] at hk
        exact ⟨k, List.mem_range.mpr (by omega), hk1, by rw [← hq1]; exact hkid⟩
    · intro st hst
      rw [hstagescfg] at hst
      rw [hstgd]
      exact h6 st hst
  · have hens : ¬ (ensure_filter_structure s).1 = false := by
      rw [(ensure_filter_structure_ok s).mpr h1]
      simp
    have hpost : (create_story title description stage s).2 = (load_config s).2 := by
      simp [create_story, hens, hstage]
    rw [hpost]
    exact inv_load_config ⟨h1, h2, h3, h4, h5, h6⟩

/-- Replacing only the symlinks and story files of a state does not change
the configuration it loads. -/
theorem load_config_fst_set_links_stories (s : FSState)
    (L Q : List (String × String)) :
    (load_config ({ s with links := L, stories := Q } : FSState)).1
      = (load_config s).1 := by
  cases hcs : s.configFile with
  | absent => simp [load_config, hcs, default_config]
  | malformed => simp [load_config, hcs, default_config]
  | record r => simp [load_config, hcs, default_config]

/-- Characterization of a successful `delete_story`: the story file and all of
its symlinks in configured stages are removed; nothing else changes (beyond
the implicit configuration write of the load). -/
theorem delete_story_eq (story_id : String) (s : FSState)
    (hok : structureOk s) (hmem : story_id ∈ storyIds s) :
    delete_story story_id s =
      ((true, "Deleted story " ++ story_id ++
        (if (load_config s).1.kanban_stages.filter
            (fun st => decide ((st, story_id) ∈ s.links)) = []
         then ""
         else " (was in " ++ joinComma ((load_config s).1.kanban_stages.filter
            (fun st => decide ((st, story_id) ∈ s.links))) ++ ")")),
       { (load_config s).2 with
          links := s.links.filter
            (fun p => decide (¬ (p.2 = story_id ∧ p.1 ∈ (load_config s).1.kanban_stages)))
          stories := s.stories.filter (fun p => decide (p.1 ≠ story_id)) }) := by
  have hens : ¬ (ensure_filter_structure s).1 = false := by
    rw [(ensure_filter_structure_ok s).mpr hok]
    simp
  have hany : s.stories.any (fun p => decide (p.1 = story_id)) = true := by
    rw [List.any_eq_true]
    unfold storyIds at hmem
    rw [List.mem_map] at hmem
    obtain ⟨p, hp, hpid⟩ := hmem
    exact ⟨p, hp, by simp [hpid]⟩
  simp [delete_story, hens, hany]

/-- A failed story lookup: `delete_story` on a missing story file fails with
the not-found message and leaves the state untouched. -/
theorem delete_story_not_found (story_id : String) (s : FSState)
    (hok : structureOk s) (hmem : story_id ∉ storyIds s) :
    delete_story story_id s = ((false, "Story " ++ story_id ++ " not found"), s) := by
  have hens : ¬ (ensure_filter_structure s).1 = false := by
    rw [(ensure_filter_structure_ok s).mpr hok]
    simp
  have hany : s.stories.any (fun p => decide (p.1 = story_id)) = false := by
    rw [List.any_eq_false]
    intro p hp
    simp only [decide_eq_true_eq]
    intro hpid
    exact hmem (by unfold storyIds; rw [List.mem_map]; exact ⟨p, hp, hpid⟩)
  simp [delete_story, hens, hany]

/-- `delete_story` preserves the invariant (for any arguments). -/
theorem inv_delete_story {s : FSState} (h : Inv s) (story_id : String) :
    Inv ((delete_story story_id s).2) := by
  obtain ⟨h1, h2, h3, h4, h5, h6⟩ := h
  by_cases hmem : story_id ∈ storyIds s
  · rw [delete_story_eq story_id s h1 hmem]
    have hfst : (load_config ({ (load_config s).2 with
        links := s.links.filter
          (fun p => decide (¬ (p.2 = story_id ∧ p.1 ∈ (load_config s).1.kanban_stages)))
        stories := s.stories.filter (fun p => decide (p.1 ≠ story_id)) } : FSState)).1
        = (load_config s).1 := by
      rw [show ({ (load_config s).2 with
          links := s.links.filter
            (fun p => decide (¬ (p.2 = story_id ∧ p.1 ∈ (load_config s).1.kanban_stages)))
          stories := s.stories.filter (fun p => decide (p.1 ≠ story_id)) } : FSState)
        = { (load_config s).2 with
            links := s.links.filter
              (fun p => decide (¬ (p.2 = story_id ∧ p.1 ∈ (load_config s).1.kanban_stages)))
            stories := s.stories.filter (fun p => decide (p.1 ≠ story_id)) } from rfl,
        load_config_fst_set_links_stories]
      simp [load_config_idem]
    refine ⟨?_, ?_, ?_, ?_, ?_, ?_⟩
    · exact ⟨by simpa using h1.1, by simpa using h1.2.1, by simpa using h1.2.2⟩
    · show ((s.links.filter _).map Prod.snd).Nodup
      exact h2.sublist ((List.filter_sublist _).map Prod.snd)
    · intro p hp
      rw [hfst]
      exact h3 p (List.mem_of_mem_filter hp)
    · intro p hp
      rw [hfst]
      exact h4 p (List.mem_of_mem_filter hp)
    · intro q hq
      rw [hfst]
      exact h5 q (List.mem_of_mem_filter hq)
    · intro st hst
      rw [hfst] at hst
      simpa using h6 st hst
  · rw [delete_story_not_found story_id s h1 hmem]
    exact ⟨h1, h2, h3, h4, h5, h6⟩

/-- Characterization of a successful `move_story`: every configured-stage
symlink of the story is removed, then the one target-stage symlink is added;
the stories collection is untouched. -/
theorem move_story_eq (story_id target_stage : String) (s : FSState)
    (hok : structureOk s)
    (htarget : target_stage ∈ (load_config s).1.kanban_stages)
    (hmem : story_id ∈ storyIds s)
    (htdir : target_stage ∈ s.stageDirs) :
    move_story story_id target_stage s =
      ((true, "Moved story " ++ story_id ++
        (if (load_config s).1.kanban_stages.filter
            (fun st => decide ((st, story_id) ∈ s.links)) = []
         then ""
         else " from " ++ joinComma ((load_config s).1.kanban_stages.filter
            (fun st => decide ((st, story_id) ∈ s.links)))) ++
        " to " ++ target_stage),
       { (load_config s).2 with
          links := s.links.filter
            (fun p => decide (¬ (p.2 = story_id ∧ p.1 ∈ (load_config s).1.kanban_stages)))
            ++ [(target_stage, story_id)] }) := by
  have hens : ¬ (ensure_filter_structure s).1 = false := by
    rw [(ensure_filter_structure_ok s).mpr hok]
    simp
  have hany : s.stories.any (fun p => decide (p.1 = story_id)) = true := by
    rw [List.any_eq_true]
    unfold storyIds at hmem
    rw [List.mem_map] at hmem
    obtain ⟨p, hp, hpid⟩ := hmem
    exact ⟨p, hp, by simp [hpid]⟩
  have hnotmem : ((target_stage, story_id) ∈ s.links.filter
      (fun p => decide (¬ (p.2 = story_id ∧ p.1 ∈ (load_config s).1.kanban_stages)))) = False := by
    simp [List.mem_filter, htarget]
  simp [move_story, hens, htarget, hany, htdir, hnotmem]

/-- `move_story` preserves the invariant (for any arguments). -/
theorem inv_move_story {s : FSState} (h : Inv s) (story_id target_stage : String) :
    Inv ((move_story story_id target_stage s).2) := by
  obtain ⟨h1, h2, h3, h4, h5, h6⟩ := h
  have hens : ¬ (ensure_filter_structure s).1 = false := by
    rw [(ensure_filter_structure_ok s).mpr h1]
    simp
  by_cases htarget : target_stage ∈ (load_config s).1.kanban_stages
  · by_cases hmem : story_id ∈ storyIds s
    · have htdir : target_stage ∈ s.stageDirs := h6 target_stage htarget
      rw [move_story_eq story_id target_stage s h1 htarget hmem htdir]
      have hfst : (load_config ({ (load_config s).2 with
          links := s.links.filter
            (fun p => decide (¬ (p.2 = story_id ∧ p.1 ∈ (load_config s).1.kanban_stages)))
            ++ [(target_stage, story_id)] } : FSState)).1
          = (load_config s).1 := by
        rw [show ({ (load_config s).2 with
            links := s.links.filter
              (fun p => decide (¬ (p.2 = story_id ∧ p.1 ∈ (load_config s).1.kanban_stages)))
              ++ [(target_stage, story_id)] } : FSState)
          = { (load_config s).2 with
              links := s.links.filter
                (fun p => decide (¬ (p.2 = story_id ∧ p.1 ∈ (load_config s).1.kanban_stages)))
                ++ [(target_stage, story_id)],
              stories := ((load_config s).2).stories } from rfl,
          load_config_fst_set_links_stories]
        simp [load_config_idem]
      have hkept : ∀ p ∈ s.links.filter
          (fun p => decide (¬ (p.2 = story_id ∧ p.1 ∈ (load_config s).1.kanban_stages))),
          p ∈ s.links ∧ p.2 ≠ story_id := by
        intro p hp
        rw [List.mem_filter] at hp
        refine ⟨hp.1, ?_⟩
        have := hp.2
        simp only [decide_eq_true_eq] at this
        intro hpid
        exact this ⟨hpid, h3 p hp.1⟩
      refine ⟨?_, ?_, ?_, ?_, ?_, ?_⟩
      · exact ⟨by simpa using h1.1, by simpa using h1.2.1, by simpa using h1.2.2⟩
      · show ((s.links.filter _ ++ [(target_stage, story_id)]).map Prod.snd).Nodup
        rw [List.map_append]
        refine List.Nodup.append
          (h2.sublist ((List.filter_sublist _).map Prod.snd))
          (List.nodup_singleton _) ?_
        intro a ha hb
        simp only [List.map_cons, List.map_nil, List.mem_singleton] at hb
        rw [List.mem_map] at ha
        obtain ⟨p, hp, hpa⟩ := ha
        exact (hkept p hp).2 (by rw [hpa, hb])
      · intro p hp
        rw [hfst]
        rw [List.mem_append] at hp
        rcases hp with hp | hp
        · exact h3 p (hkept p hp).1
        · rw [List.mem_singleton] at hp
          rw [hp]
          exact htarget
      · intro p hp
        rw [hfst]
        rw [List.mem_append] at hp
        rcases hp with hp | hp
        · exact h4 p (hkept p hp).1
        · rw [List.mem_singleton] at hp
          unfold storyIds at hmem
          rw [List.mem_map] at hmem
          obtain ⟨q, hq, hqid⟩ := hmem
          obtain ⟨k, hk, hk1, hkid⟩ := h5 q hq
          rw [hp]
          exact ⟨k, hk, hk1, by rw [← hqid]; exact hkid⟩
      · intro q hq
        rw [hfst]
        exact h5 q (by simpa using hq)
      · intro st hst
        rw [hfst] at hst
        simpa using h6 st hst
    · have hany : s.stories.any (fun p => decide (p.1 = story_id)) = false := by
        rw [List.any_eq_false]
        intro p hp
        simp only [decide_eq_true_eq]
        intro hpid
        exact hmem (by unfold storyIds; rw [List.mem_map]; exact ⟨p, hp, hpid⟩)
      have hpost : (move_story story_id target_stage s).2 = (load_config s).2 := by
        simp [move_story, hens, htarget, hany]
      rw [hpost]
      exact inv_load_config ⟨h1, h2, h3, h4, h5, h6⟩
  · have hpost : (move_story story_id target_stage s).2 = (load_config s).2 := by
      simp [move_story, hens, htarget]
    rw [hpost]
    exact inv_load_config ⟨h1, h2, h3, h4, h5, h6⟩

/-! ## Listing stories -/

@[simp] theorem stage_listing_load (s : FSState) (st : String) :
    stage_listing ((load_config s).2) st = stage_listing s st := by
  simp [stage_listing]

theorem foldl_stages (dirs : List String) (f : String → List StoryRec) :
    ∀ (l : List String) (acc : List StoryRec),
      l.foldl (fun a st => if st ∈ dirs then a ++ f st else a) acc
        = acc ++ l.flatMap (fun st => if st ∈ dirs then f st else []) := by
  intro l
  induction l with
  | nil =>
    intro acc
    simp
  | cons x xs ih =>
    intro acc
    by_cases hx : x ∈ dirs
    · simp only [List.foldl_cons, if_pos hx, ih, List.flatMap_cons, if_pos hx,
        List.append_assoc]
    · simp only [List.foldl_cons, if_neg hx, ih, List.flatMap_cons, if_neg hx,
        List.nil_append]

/-- The stages iterated by `list_stories`: the requested one, or the
configured order. -/
def stagesToCheck (stageArg : Option String) (s : FSState) : List String :=
  match stageArg with
  | some st => [st]
  | none => (load_config s).1.kanban_stages

/-- On an intact structure with no filesystem error, `list_stories` is the
concatenation, in stage-iteration order, of the per-stage listings of the
existing stage directories. -/
theorem list_stories_eq (stageArg : Option String) (s : FSState)
    (hok : structureOk s) (hio : s.ioError = false) :
    (list_stories stageArg s).1
      = (stagesToCheck stageArg s).flatMap
          (fun st => if st ∈ s.stageDirs then stage_listing s st else []) := by
  have hens : ¬ (ensure_filter_structure s).1 = false := by
    rw [(ensure_filter_structure_ok s).mpr hok]
    simp
  cases stageArg with
  | none =>
    simp [list_stories, hens, hio, stagesToCheck, foldl_stages]
  | some st =>
    simp [list_stories, hens, hio, stagesToCheck, foldl_stages]

theorem lookup_isSome_of_mem {l : List (String × String)} {id : String}
    (h : id ∈ l.map Prod.fst) : (l.lookup id).isSome := by
  induction l with
  | nil => simp at h
  | cons p ps ih =>
    rw [List.map_cons, List.mem_cons] at h
    by_cases hpe : id = p.1
    · cases p
      simp_all [List.lookup]
    · rcases h with h | h
      · exact absurd h hpe
      · cases p with
        | mk a b =>
          have : (id == a) = false := by
            simp only [beq_eq_false_iff_ne, ne_eq]
            exact fun hc => hpe (by simpa using hc)
          simpa [List.lookup, this] using ih h

theorem mem_of_lookup_some {l : List (String × String)} {id v : String}
    (h : l.lookup id = some v) : id ∈ l.map Prod.fst := by
  induction l with
  | nil => simp [List.lookup] at h
  | cons p ps ih =>
    cases p with
    | mk a b =>
      by_cases hpe : (id == a) = true
      · rw [List.map_cons, List.mem_cons]
        left
        simpa using hpe
      · rw [Bool.not_eq_true] at hpe
        rw [List.lookup, hpe] at h
        rw [List.map_cons, List.mem_cons]
        exact Or.inr (ih h)

/-- Shape of every record produced for one stage: a symlink in that stage
whose story file exists, with the title extracted from the file content. -/
theorem mem_stage_listing {s : FSState} {st : String} {r : StoryRec}
    (h : r ∈ stage_listing s st) :
    (st, r.id) ∈ s.links ∧ r.id ∈ storyIds s ∧ r.stage = st ∧
    ∃ content, s.stories.lookup r.id = some content ∧
      r.title = extract_title_from_story content r.id := by
  unfold stage_listing at h
  rw [List.mem_filterMap] at h
  obtain ⟨p, hp, hpr⟩ := h
  rw [List.mem_filter] at hp
  obtain ⟨hpl, hpst⟩ := hp
  rw [decide_eq_true_eq] at hpst
  cases hlook : s.stories.lookup p.2 with
  | none => rw [hlook] at hpr; simp at hpr
  | some content =>
    rw [hlook] at hpr
    simp only [Option.some.injEq] at hpr
    have hid : r.id = p.2 := by rw [← hpr]
    have hstage : r.stage = st := by rw [← hpr]
    have htitle : r.title = extract_title_from_story content p.2 := by rw [← hpr]
    refine ⟨?_, ?_, hstage, content, ?_, ?_⟩
    · rw [hid, ← hpst]
      exact hpl
    · rw [hid]
      exact mem_of_lookup_some hlook
    · rw [hid]
      exact hlook
    · rw [htitle, hid]

/-- Conversely, a symlink in a stage whose story file exists is listed. -/
theorem stage_listing_intro {s : FSState} {st id content : String}
    (hl : (st, id) ∈ s.links) (hc : s.stories.lookup id = some content) :
    (⟨id, extract_title_from_story content id, st⟩ : StoryRec) ∈ stage_listing s st := by
  unfold stage_listing
  rw [List.mem_filterMap]
  refine ⟨(st, id), ?_, ?_⟩
  · rw [List.mem_filter]
    exact ⟨hl, by simp⟩
  · simp [hc]

/-- Every listed record's story file exists. -/
theorem mem_list_stories_storyIds {stageArg : Option String} {t : FSState}
    {r : StoryRec} (h : r ∈ (list_stories stageArg t).1) : r.id ∈ storyIds t := by
  by_cases hok : structureOk t
  · by_cases hio : t.ioError = true
    · have hens : ¬ (ensure_filter_structure t).1 = false := by
        rw [(ensure_filter_structure_ok t).mpr hok]
        simp
      simp [list_stories, hens, hio] at h
    · rw [list_stories_eq stageArg t hok (by simpa using hio)] at h
      rw [List.mem_flatMap] at h
      obtain ⟨st, _, hr⟩ := h
      split at hr
      · exact (mem_stage_listing hr).2.1
      · simp at hr
  · have hens : (ensure_filter_structure t).1 = false := by
      rcases Bool.eq_false_or_eq_true (ensure_filter_structure t).1 with he | he
      · exact absurd ((ensure_filter_structure_ok t).mp he) hok
      · exact he
    simp [list_stories, hens] at h

/-! ## C9: `list_stories` -/

/-- C9: `list_stories` is total and never an error value: it returns `[]` when
the structure precondition fails or when the filesystem errors during
iteration; otherwise it returns the `{id, title, stage}` records of the
requested stage (or of all configured stages, in configured order), each
backed by a symlink in its stage and an existing story file whose extracted
title it carries. -/
theorem list_stories_correct (stageArg : Option String) (s : FSState) :
    (¬ structureOk s → (list_stories stageArg s).1 = []) ∧
    (s.ioError = true → (list_stories stageArg s).1 = []) ∧
    (structureOk s → s.ioError = false →
      (list_stories stageArg s).1
        = (stagesToCheck stageArg s).flatMap
            (fun st => if st ∈ s.stageDirs then stage_listing s st else []) ∧
      ∀ r ∈ (list_stories stageArg s).1,
        (r.stage, r.id) ∈ s.links ∧ r.id ∈ storyIds s ∧
        r.stage ∈ stagesToCheck stageArg s ∧
        ∃ content, s.stories.lookup r.id = some content ∧
          r.title = extract_title_from_story content r.id) := by
  refine ⟨?_, ?_, ?_⟩
  · intro hok
    have hens : (ensure_filter_structure s).1 = false := by
      rcases Bool.eq_false_or_eq_true (ensure_filter_structure s).1 with he | he
      · exact absurd ((ensure_filter_structure_ok s).mp he) hok
      · exact he
    simp [list_stories, hens]
  · intro hio
    by_cases hok : structureOk s
    · have hens : ¬ (ensure_filter_structure s).1 = false := by
        rw [(ensure_filter_structure_ok s).mpr hok]
        simp
      simp [list_stories, hens, hio]
    · have hens : (ensure_filter_structure s).1 = false := by
        rcases Bool.eq_false_or_eq_true (ensure_filter_structure s).1 with he | he
        · exact absurd ((ensure_filter_structure_ok s).mp he) hok
        · exact he
      simp [list_stories, hens]
  · intro hok hio
    refine ⟨list_stories_eq stageArg s hok hio, ?_⟩
    intro r hr
    rw [list_stories_eq stageArg s hok hio, List.mem_flatMap] at hr
    obtain ⟨st, hst, hrst⟩ := hr
    split at hrst
    · obtain ⟨hlink, hid, hstage, content, hcontent, htitle⟩ := mem_stage_listing hrst
      exact ⟨by rw [hstage]; exact hlink, hid, by rw [hstage]; exact hst,
        content, hcontent, htitle⟩
    · simp at hrst

/-- A project state with one story whose kanban iteration raises `OSError`. -/
def ioErrorState : FSState := { storyState with ioError := true }

/-- Witness for C9 at three concrete states: a directory without a project, a
project with a filesystem error, and an intact project with one story. -/
theorem list_stories_correct_witness :
    ((¬ structureOk emptyProject) ∧ (list_stories none emptyProject).1 = []) ∧
    (ioErrorState.ioError = true ∧ (list_stories none ioErrorState).1 = []) ∧
    (structureOk storyState ∧ storyState.ioError = false ∧
      ((list_stories none storyState).1
        = (stagesToCheck none storyState).flatMap
            (fun st => if st ∈ storyState.stageDirs then stage_listing storyState st else []) ∧
      ∀ r ∈ (list_stories none storyState).1,
        (r.stage, r.id) ∈ storyState.links ∧ r.id ∈ storyIds storyState ∧
        r.stage ∈ stagesToCheck none storyState ∧
        ∃ content, storyState.stories.lookup r.id = some content ∧
          r.title = extract_title_from_story content r.id)) :=
  ⟨⟨by decide, (list_stories_correct none emptyProject).1 (by decide)⟩,
   ⟨by decide, (list_stories_correct none ioErrorState).2.1 (by decide)⟩,
   ⟨by decide, by decide,
    (list_stories_correct none storyState).2.2 (by decide) (by decide)⟩⟩

/-! ## C5: `delete_story` -/

/-- C5: when the story file exists, `delete_story` succeeds, removes the story
file and every symlink referencing the story, a subsequent `list_stories`
(with any stage argument) never mentions the id again, and a repeated delete
fails with the not-found message; when the story file does not exist, it fails
with the not-found message and changes nothing. -/
theorem delete_story_correct (story_id : String) (s : FSState) (hinv : Inv s) :
    (story_id ∈ storyIds s →
      (delete_story story_id s).1.1 = true ∧
      story_id ∉ storyIds (delete_story story_id s).2 ∧
      (∀ p ∈ (delete_story story_id s).2.links, p.2 ≠ story_id) ∧
      (∀ stageArg, ∀ r ∈ (list_stories stageArg (delete_story story_id s).2).1,
        r.id ≠ story_id) ∧
      (delete_story story_id (delete_story story_id s).2).1
        = (false, "Story " ++ story_id ++ " not found")) ∧
    (story_id ∉ storyIds s →
      delete_story story_id s = ((false, "Story " ++ story_id ++ " not found"), s)) := by
  obtain ⟨h1, h2, h3, h4, h5, h6⟩ := hinv
  constructor
  · intro hmem
    have heq := delete_story_eq story_id s h1 hmem
    have hpost_stories : (delete_story story_id s).2.stories
        = s.stories.filter (fun p => decide (p.1 ≠ story_id)) := by
      rw [heq]
    have hpost_links : (delete_story story_id s).2.links
        = s.links.filter
            (fun p => decide (¬ (p.2 = story_id ∧ p.1 ∈ (load_config s).1.kanban_stages))) := by
      rw [heq]
    have hgone : story_id ∉ storyIds (delete_story story_id s).2 := by
      intro hmem'
      unfold storyIds at hmem'
      rw [hpost_stories, List.mem_map] at hmem'
      obtain ⟨q, hq, hqid⟩ := hmem'
      rw [List.mem_filter] at hq
      have := hq.2
      rw [decide_eq_true_eq] at this
      exact this hqid
    have hlinks : ∀ p ∈ (delete_story story_id s).2.links, p.2 ≠ story_id := by
      intro p hp
      rw [hpost_links, List.mem_filter] at hp
      have hcond := hp.2
      rw [decide_eq_true_eq] at hcond
      intro hpid
      exact hcond ⟨hpid, h3 p hp.1⟩
    have hinv' : Inv (delete_story story_id s).2 :=
      inv_delete_story ⟨h1, h2, h3, h4, h5, h6⟩ story_id
    refine ⟨by rw [heq], hgone, hlinks, ?_, ?_⟩
    · intro stageArg r hr
      intro hrid
      have hmem2 := mem_list_stories_storyIds hr
      rw [hrid] at hmem2
      exact hgone hmem2
    · obtain ⟨h1', _, _, _, _, _⟩ := hinv'
      rw [delete_story_not_found story_id (delete_story story_id s).2 h1' hgone]
  · intro hmem
    exact delete_story_not_found story_id s h1 hmem

/-- Witness for C5: deleting the one story of a concrete project, and
deleting a non-existent story. -/
theorem delete_story_correct_witness :
    (("DEMOX-1" ∈ storyIds storyState) ∧
      ((delete_story "DEMOX-1" storyState).1.1 = true ∧
       "DEMOX-1" ∉ storyIds (delete_story "DEMOX-1" storyState).2 ∧
       (∀ p ∈ (delete_story "DEMOX-1" storyState).2.links, p.2 ≠ "DEMOX-1") ∧
       (∀ stageArg, ∀ r ∈ (list_stories stageArg (delete_story "DEMOX-1" storyState).2).1,
         r.id ≠ "DEMOX-1") ∧
       (delete_story "DEMOX-1" (delete_story "DEMOX-1" storyState).2).1
         = (false, "Story " ++ "DEMOX-1" ++ " not found"))) ∧
    (("NOPE-9" ∉ storyIds storyState) ∧
      delete_story "NOPE-9" storyState
        = ((false, "Story " ++ "NOPE-9" ++ " not found"), storyState)) :=
  ⟨⟨by decide, (delete_story_correct "DEMOX-1" storyState (by decide)).1 (by decide)⟩,
   ⟨by decide, (delete_story_correct "NOPE-9" storyState (by decide)).2 (by decide)⟩⟩

/-! ## C3: one stage per story, across all reachable states -/

/-- One story operation, with arbitrary arguments. -/
inductive StoryStep : FSState → FSState → Prop
  | create (s : FSState) (title description stage : String) :
      StoryStep s ((create_story title description stage s).2)
  | delete (s : FSState) (story_id : String) :
      StoryStep s ((delete_story story_id s).2)
  | move (s : FSState) (story_id target_stage : String) :
      StoryStep s ((move_story story_id target_stage s).2)

/-- The invariant holds in every state reachable by story operations. -/
theorem inv_reachable {a b : FSState} (h : Inv a)
    (hr : Relation.ReflTransGen StoryStep a b) : Inv b := by
  induction hr with
  | refl => exact h
  | tail _ hstep ih =>
    cases hstep with
    | create title description stage => exact inv_create_story ih title description stage
    | delete story_id => exact inv_delete_story ih story_id
    | move story_id target_stage => exact inv_move_story ih story_id target_stage

theorem eq_of_nodup_map_snd {l : List (String × String)}
    (h : (l.map Prod.snd).Nodup) {p q : String × String}
    (hp : p ∈ l) (hq : q ∈ l) (he : p.2 = q.2) : p = q := by
  induction l with
  | nil => simp at hp
  | cons a as ih =>
    rw [List.map_cons, List.nodup_cons] at h
    rcases List.mem_cons.mp hp with hp1 | hp1 <;> rcases List.mem_cons.mp hq with hq1 | hq1
    · rw [hp1, hq1]
    · exfalso
      apply h.1
      rw [hp1] at he
      rw [he]
      exact List.mem_map.mpr ⟨q, hq1, rfl⟩
    · exfalso
      apply h.1
      rw [hq1] at he
      rw [← he]
      exact List.mem_map.mpr ⟨p, hp1, rfl⟩
    · exact ih h.2 hp1 hq1

/-- Links kept by the removal filter of `move_story`/`delete_story` never
name the moved story (given that all links sit in configured stages). -/
theorem links_filter_kept {s : FSState}
    (h3 : ∀ p ∈ s.links, p.1 ∈ (load_config s).1.kanban_stages) (story_id : String) :
    ∀ p ∈ s.links.filter
      (fun p => decide (¬ (p.2 = story_id ∧ p.1 ∈ (load_config s).1.kanban_stages))),
      p ∈ s.links ∧ p.2 ≠ story_id := by
  intro p hp
  rw [List.mem_filter] at hp
  refine ⟨hp.1, ?_⟩
  have hcond := hp.2
  rw [decide_eq_true_eq] at hcond
  intro hpid
  exact hcond ⟨hpid, h3 p hp.1⟩

/-- Every listed record is backed by a symlink in its reported stage. -/
theorem mem_list_stories_links {stageArg : Option String} {t : FSState}
    {r : StoryRec} (h : r ∈ (list_stories stageArg t).1) : (r.stage, r.id) ∈ t.links := by
  by_cases hok : structureOk t
  · by_cases hio : t.ioError = true
    · have hens : ¬ (ensure_filter_structure t).1 = false := by
        rw [(ensure_filter_structure_ok t).mpr hok]
        simp
      simp [list_stories, hens, hio] at h
    · rw [list_stories_eq stageArg t hok (by simpa using hio)] at h
      rw [List.mem_flatMap] at h
      obtain ⟨st, _, hr⟩ := h
      split at hr
      · obtain ⟨hlink, _, hstage, _⟩ := mem_stage_listing hr
        rw [hstage]
        exact hlink
      · simp at hr
  · have hens : (ensure_filter_structure t).1 = false := by
      rcases Bool.eq_false_or_eq_true (ensure_filter_structure t).1 with he | he
      · exact absurd ((ensure_filter_structure_ok t).mp he) hok
      · exact he
    simp [list_stories, hens] at h

/-- Inversion of a successful `move_story`: all four validations passed. -/
theorem move_story_success_inv (story_id target_stage : String) (s : FSState)
    (hs : (move_story story_id target_stage s).1.1 = true) :
    structureOk s ∧ target_stage ∈ (load_config s).1.kanban_stages ∧
    story_id ∈ storyIds s ∧ target_stage ∈ s.stageDirs := by
  by_cases h1 : (ensure_filter_structure s).1 = false
  · simp [move_story, h1] at hs
  have hok : structureOk s := by
    have htrue : (ensure_filter_structure s).1 = true := by
      cases hb : (ensure_filter_structure s).1
      · exact absurd hb h1
      · rfl
    exact (ensure_filter_structure_ok s).mp htrue
  by_cases h2 : target_stage ∈ (load_config s).1.kanban_stages
  · by_cases h3 : s.stories.any (fun p => decide (p.1 = story_id)) = true
    · have hmem : story_id ∈ storyIds s := by
        rw [List.any_eq_true] at h3
        obtain ⟨p, hp, hpid⟩ := h3
        rw [decide_eq_true_eq] at hpid
        exact List.mem_map.mpr ⟨p, hp, hpid⟩
      by_cases h4 : target_stage ∈ s.stageDirs
      · exact ⟨hok, h2, hmem, h4⟩
      · have hfalse : (move_story story_id target_stage s).1.1 = false := by
          simp [move_story, h1, h2, h3, h4]
        rw [hfalse] at hs
        cases hs
    · have hfalse : (move_story story_id target_stage s).1.1 = false := by
        simp [move_story, h1, h2, h3]
      rw [hfalse] at hs
      cases hs
  · have hfalse : (move_story story_id target_stage s).1.1 = false := by
      simp [move_story, h1, h2]
    rw [hfalse] at hs
    cases hs

/-- C3: in every state reachable by the story operations from a state
satisfying the invariant, a story id appears in at most one stage directory;
and after any successful `move_story(id, T)` a full `list_stories` (absent a
filesystem error) lists the story under T, and lists it under no other
stage. -/
theorem story_single_stage (a s : FSState) (h : Inv a)
    (hr : Relation.ReflTransGen StoryStep a s) :
    (∀ st₁ st₂ id, (st₁, id) ∈ s.links → (st₂, id) ∈ s.links → st₁ = st₂) ∧
    (∀ story_id target_stage,
      (move_story story_id target_stage s).1.1 = true →
      (s.ioError = false →
        ∃ r ∈ (list_stories none (move_story story_id target_stage s).2).1,
          r.id = story_id ∧ r.stage = target_stage) ∧
      (∀ r ∈ (list_stories none (move_story story_id target_stage s).2).1,
        r.id = story_id → r.stage = target_stage)) := by
  have hinv := inv_reachable h hr
  obtain ⟨h1, h2, h3, h4, h5, h6⟩ := hinv
  constructor
  · intro st₁ st₂ id hm1 hm2
    have := eq_of_nodup_map_snd h2 hm1 hm2 rfl
    exact congrArg Prod.fst this
  · intro story_id target_stage hs
    obtain ⟨hok, htarget, hmem, htdir⟩ := move_story_success_inv story_id target_stage s hs
    have heq := move_story_eq story_id target_stage s hok htarget hmem htdir
    have hpost_links : (move_story story_id target_stage s).2.links
        = s.links.filter
            (fun p => decide (¬ (p.2 = story_id ∧ p.1 ∈ (load_config s).1.kanban_stages)))
            ++ [(target_stage, story_id)] := by
      rw [heq]
    have hpost_stories : (move_story story_id target_stage s).2.stories = s.stories := by
      rw [heq]
      simp
    have hpost_dirs : (move_story story_id target_stage s).2.stageDirs = s.stageDirs := by
      rw [heq]
      simp
    have hpost_io : (move_story story_id target_stage s).2.ioError = s.ioError := by
      rw [heq]
      simp
    have hinv' : Inv (move_story story_id target_stage s).2 :=
      inv_move_story ⟨h1, h2, h3, h4, h5, h6⟩ story_id target_stage
    obtain ⟨h1', h2', h3', h4', h5', h6'⟩ := hinv'
    have hpost_stages : target_stage
        ∈ (load_config (move_story story_id target_stage s).2).1.kanban_stages := by
      have := h3' (target_stage, story_id) (by
        rw [hpost_links]
        rw [List.mem_append]
        right
        exact List.mem_singleton.mpr rfl)
      exact this
    constructor
    · intro hio
      have hio' : (move_story story_id target_stage s).2.ioError = false := by
        rw [hpost_io]
        exact hio
      obtain ⟨content, hcontent⟩ :
          ∃ c, s.stories.lookup story_id = some c := by
        have := lookup_isSome_of_mem
          (show story_id ∈ s.stories.map Prod.fst from hmem)
        cases hl : s.stories.lookup story_id with
        | none => rw [hl] at this; simp at this
        | some c => exact ⟨c, rfl⟩
      refine ⟨⟨story_id, extract_title_from_story content story_id, target_stage⟩, ?_, rfl, rfl⟩
      rw [list_stories_eq none (move_story story_id target_stage s).2 h1' hio']
      rw [List.mem_flatMap]
      refine ⟨target_stage, hpost_stages, ?_⟩
      rw [if_pos (by rw [hpost_dirs]; exact htdir)]
      apply stage_listing_intro
      · rw [hpost_links, List.mem_append]
        right
        exact List.mem_singleton.mpr rfl
      · rw [hpost_stories]
        exact hcontent
    · intro r hr2 hrid
      have hlink := mem_list_stories_links hr2
      rw [hpost_links, List.mem_append] at hlink
      rcases hlink with hlink | hlink
      · exfalso
        have := (links_filter_kept h3 story_id (r.stage, r.id) hlink).2
        exact this hrid
      · rw [List.mem_singleton] at hlink
        have := congrArg Prod.fst hlink
        exact this

/-- Witness for C3: the fresh project satisfies the invariant and the
one-story project is reachable from it by a single `create_story` step. -/
theorem story_single_stage_witness :
    Inv freshProject ∧
    ((∀ st₁ st₂ id, (st₁, id) ∈ storyState.links → (st₂, id) ∈ storyState.links →
        st₁ = st₂) ∧
     (∀ story_id target_stage,
        (move_story story_id target_stage storyState).1.1 = true →
        (storyState.ioError = false →
          ∃ r ∈ (list_stories none (move_story story_id target_stage storyState).2).1,
            r.id = story_id ∧ r.stage = target_stage) ∧
        (∀ r ∈ (list_stories none (move_story story_id target_stage storyState).2).1,
          r.id = story_id → r.stage = target_stage))) :=
  ⟨by decide, story_single_stage freshProject storyState (by decide)
    (Relation.ReflTransGen.single (StoryStep.create freshProject "T" "" "planning"))⟩

/-! ## C1: sequential id assignment -/

/-- Freshly issued ids collide with no existing symlink. -/
theorem inv_fresh_link {s : FSState} (h : Inv s) (stage : String) :
    (stage, mkStoryId (load_config s).1.storyPrefix
      ((load_config s).1.last_story_number + 1)) ∉ s.links := by
  obtain ⟨_, _, _, h4, _, _⟩ := h
  intro hmem
  obtain ⟨k, hk, _hk1, hkid⟩ := h4 _ hmem
  rw [List.mem_range] at hk
  have := mkStoryId_inj _ hkid
  omega

/-- Call `create_story` once per input `(title, description, stage)` triple,
sequentially, collecting the results. -/
def runCreates : List (String × String × String) → FSState →
    List (Bool × String) × FSState
  | [], s => ([], s)
  | i :: rest, s =>
    ((create_story i.1 i.2.1 i.2.2 s).1
        :: (runCreates rest (create_story i.1 i.2.1 i.2.2 s).2).1,
      (runCreates rest (create_story i.1 i.2.1 i.2.2 s).2).2)

/-- The expected success messages when the counter starts at `N`:
ids `{P}-{N+1}`, `{P}-{N+2}`, … in order. -/
def expectedResults (P : String) : Nat → List (String × String × String) →
    List (Bool × String)
  | _, [] => []
  | N, i :: rest =>
    (true, "Created story " ++ mkStoryId P (N + 1) ++ ": " ++ i.1)
      :: expectedResults P (N + 1) rest

theorem runCreates_spec (inputs : List (String × String × String)) :
    ∀ (s : FSState), Inv s →
      (∀ i ∈ inputs, i.2.2 ∈ (load_config s).1.kanban_stages) →
      (runCreates inputs s).1
        = expectedResults (load_config s).1.storyPrefix
            (load_config s).1.last_story_number inputs ∧
      (load_config (runCreates inputs s).2).1.last_story_number
        = (load_config s).1.last_story_number + inputs.length ∧
      Inv (runCreates inputs s).2 := by
  induction inputs with
  | nil =>
    intro s hinv _
    exact ⟨rfl, rfl, hinv⟩
  | cons i rest ih =>
    intro s hinv hstages
    obtain ⟨h1, h2, h3, h4, h5, h6⟩ := hinv
    have hstage : i.2.2 ∈ (load_config s).1.kanban_stages :=
      hstages i (List.mem_cons_self i rest)
    have hdir : i.2.2 ∈ s.stageDirs := h6 _ hstage
    have hfresh := inv_fresh_link ⟨h1, h2, h3, h4, h5, h6⟩ i.2.2
    obtain ⟨hres, _, _, _, _, _, _, _, _, _, hcfg⟩ :=
      create_story_success i.1 i.2.1 i.2.2 s h1 hstage hdir hfresh
    have hinv' := inv_create_story ⟨h1, h2, h3, h4, h5, h6⟩ i.1 i.2.1 i.2.2
    have hlast : (load_config (create_story i.1 i.2.1 i.2.2 s).2).1.last_story_number
        = (load_config s).1.last_story_number + 1 := by rw [hcfg]
    have hstagescfg : (load_config (create_story i.1 i.2.1 i.2.2 s).2).1.kanban_stages
        = (load_config s).1.kanban_stages := by rw [hcfg]
    have hprefix : (load_config (create_story i.1 i.2.1 i.2.2 s).2).1.storyPrefix
        = (load_config s).1.storyPrefix := by rw [hcfg]
    have hstages' : ∀ j ∈ rest,
        j.2.2 ∈ (load_config (create_story i.1 i.2.1 i.2.2 s).2).1.kanban_stages := by
      intro j hj
      rw [hstagescfg]
      exact hstages j (List.mem_cons_of_mem i hj)
    obtain ⟨ihres, ihlast, ihinv⟩ := ih (create_story i.1 i.2.1 i.2.2 s).2 hinv' hstages'
    refine ⟨?_, ?_, ihinv⟩
    · show (create_story i.1 i.2.1 i.2.2 s).1
          :: (runCreates rest (create_story i.1 i.2.1 i.2.2 s).2).1 = _
      rw [hres, ihres, hlast, hprefix]
      rfl
    · show (load_config (runCreates rest (create_story i.1 i.2.1 i.2.2 s).2).2).1.last_story_number = _
      rw [ihlast, hlast, List.length_cons]
      omega

theorem expectedResults_getElem (P : String) :
    ∀ (inputs : List (String × String × String)) (N k : Nat)
      (i : String × String × String),
      inputs[k]? = some i →
      (expectedResults P N inputs)[k]?
        = some (true, "Created story " ++ mkStoryId P (N + k + 1) ++ ": " ++ i.1) := by
  intro inputs
  induction inputs with
  | nil =>
    intro N k i h
    simp at h
  | cons a rest ih =>
    intro N k i h
    cases k with
    | zero =>
      rw [List.getElem?_cons_zero] at h
      simp only [Option.some.injEq] at h
      show ((true, "Created story " ++ mkStoryId P (N + 1) ++ ": " ++ a.1)
          :: expectedResults P (N + 1) rest)[0]? = _
      rw [List.getElem?_cons_zero, h]
    | succ m =>
      rw [List.getElem?_cons_succ] at h
      have hih := ih (N + 1) m i h
      show ((true, "Created story " ++ mkStoryId P (N + 1) ++ ": " ++ a.1)
          :: expectedResults P (N + 1) rest)[m + 1]? = _
      rw [List.getElem?_cons_succ, hih]
      have harith : N + 1 + m + 1 = N + (m + 1) + 1 := by omega
      rw [harith]

/-- C1: on a fresh project (`last_story_number = 0`), N sequential
`create_story` calls with valid stages all succeed with ids
`{prefix}-1 … {prefix}-N` in order (no gaps, no repeats), and afterwards the
persisted `last_story_number` is N; and every `_get_next_story_number` call
returns the incremented counter with id `"{prefix}-{number}"` and persists
the increment immediately. -/
theorem create_story_sequential (inputs : List (String × String × String))
    (s : FSState) (hinv : Inv s)
    (hzero : (load_config s).1.last_story_number = 0)
    (hstages : ∀ i ∈ inputs, i.2.2 ∈ (load_config s).1.kanban_stages) :
    (∀ (k : Nat) (i : String × String × String), inputs[k]? = some i →
      ((runCreates inputs s).1)[k]? = some (true, "Created story "
        ++ mkStoryId (load_config s).1.storyPrefix (k + 1) ++ ": " ++ i.1)) ∧
    (load_config (runCreates inputs s).2).1.last_story_number = inputs.length ∧
    (∀ t : FSState,
      (get_next_story_number t).1.1 = (load_config t).1.last_story_number + 1 ∧
      (get_next_story_number t).1.2
        = mkStoryId (load_config t).1.storyPrefix
            ((load_config t).1.last_story_number + 1) ∧
      (load_config (get_next_story_number t).2).1.last_story_number
        = (load_config t).1.last_story_number + 1) := by
  obtain ⟨hres, hlast, _⟩ := runCreates_spec inputs s hinv hstages
  rw [hzero] at hres hlast
  refine ⟨?_, ?_, ?_⟩
  · intro k i h
    rw [hres]
    have := expectedResults_getElem (load_config s).1.storyPrefix inputs 0 k i h
    rwa [Nat.zero_add] at this
  · rw [hlast, Nat.zero_add]
  · intro t
    refine ⟨?_, ?_, ?_⟩
    · simp [get_next_story_number]
    · simp [get_next_story_number, mkStoryId]
    · simp [get_next_story_number]

/-- Witness for C1: two stories created on the concrete fresh project. -/
theorem create_story_sequential_witness :
    (Inv freshProject ∧ (load_config freshProject).1.last_story_number = 0 ∧
      (∀ i ∈ ([("A", "", "planning"), ("B", "", "complete")] :
          List (String × String × String)),
        i.2.2 ∈ (load_config freshProject).1.kanban_stages)) ∧
    ((∀ (k : Nat) (i : String × String × String),
        ([("A", "", "planning"), ("B", "", "complete")] :
          List (String × String × String))[k]? = some i →
        ((runCreates [("A", "", "planning"), ("B", "", "complete")] freshProject).1)[k]?
          = some (true, "Created story "
            ++ mkStoryId (load_config freshProject).1.storyPrefix (k + 1) ++ ": " ++ i.1)) ∧
      (load_config (runCreates [("A", "", "planning"), ("B", "", "complete")]
          freshProject).2).1.last_story_number
        = ([("A", "", "planning"), ("B", "", "complete")] :
            List (String × String × String)).length ∧
      (∀ t : FSState,
        (get_next_story_number t).1.1 = (load_config t).1.last_story_number + 1 ∧
        (get_next_story_number t).1.2
          = mkStoryId (load_config t).1.storyPrefix
              ((load_config t).1.last_story_number + 1) ∧
        (load_config (get_next_story_number t).2).1.last_story_number
          = (load_config t).1.last_story_number + 1)) :=
  ⟨⟨by decide, by decide, by decide⟩,
    create_story_sequential [("A", "", "planning"), ("B", "", "complete")]
      freshProject (by decide) (by decide) (by decide)⟩

end Filter2
